import Mathlib

/-!
Verification development for the storj CLI transfer orchestrator
(`src/cli.c` of the repository).  The functions below are shallow
embeddings of the C source: strings are `List Char`, the mutable
`cli_state_t` is an explicit record, and the effects performed against
the bridge client (resolve/store/list calls, signal cancellation,
prompts, `exit()` calls) are recorded in an explicit `World` record.
Line numbers in the doc comments refer to `src/cli.c`.
-/

namespace StorjCli

/-- Characters of a C string. -/
abbrev Str := List Char

/-- Does `sub` match at the head of `s`?  (the inner loop of `strstr`). -/
def leadMatch : Str → Str → Bool
  | [], _ => true
  | _ :: _, [] => false
  | a :: as, b :: bs => a = b && leadMatch as bs

/-- Index of the first occurrence of `sub` in `s` (`strstr`). -/
def firstOcc (sub : Str) : Str → Option Nat
  | [] => if leadMatch sub [] then some 0 else none
  | c :: rest =>
    if leadMatch sub (c :: rest) then some 0
    else (firstOcc sub rest).map (· + 1)

/-- `strpos` (cli.c:257-264): first occurrence of `sub_str` in `str`,
`-1` when absent. -/
def strpos (str sub_str : Str) : Int :=
  match firstOcc sub_str str with
  | none => -1
  | some k => (k : Int)

/-- Accumulator pass of `strtok`: maximal nonempty runs of
non-delimiter characters, in order. -/
def strtokAux (d : Char) : Str → Str → List Str
  | [], cur => if cur = [] then [] else [cur.reverse]
  | c :: rest, cur =>
    if c = d then
      if cur = [] then strtokAux d rest []
      else cur.reverse :: strtokAux d rest []
    else strtokAux d rest (c :: cur)

/-- All tokens produced by repeated `strtok(s, d)` calls. -/
def strtokSplit (d : Char) (s : Str) : List Str := strtokAux d s []

/-- The characters of the `"storj://"` scheme literal. -/
def storjScheme : Str := ['s', 't', 'o', 'r', 'j', ':', '/', '/']

/-- The characters of `"storj:"`, the first `/`-token of a storj URI. -/
def storjSchemeTok : Str := ['s', 't', 'o', 'r', 'j', ':']

/-- Result of `validate_cmd_tokenize`: the returned count, the tokens
that were written into `str_token[]`, and whether the
"Invalid Command Entry" message was printed. -/
structure TokResult where
  count : Int
  tokens : List Str
  invalidMsg : Bool
deriving DecidableEq

/-- `validate_cmd_tokenize` (cli.c:266-293).  When `strpos` returns 0 the
string is split on `/`; when it returns -1 a message is printed and -1
is returned; any other return value of `strpos` is returned as the
"number of tokens" without producing tokens or a message. -/
def validate_cmd_tokenize (cmd_str : Str) : TokResult :=
  let ret := strpos cmd_str storjScheme
  if ret = 0 then
    let toks := strtokSplit '/' cmd_str
    { count := (toks.length : Int), tokens := toks, invalidMsg := false }
  else
    { count := ret, tokens := [], invalidMsg := decide (ret = -1) }

/-- Suffix of `s` after the last occurrence of `c`, if any
(`strrchr` plus the skip of the separator itself). -/
def afterLast (c : Char) : Str → Option Str
  | [] => none
  | a :: rest =>
    match afterLast c rest with
    | some s => some s
    | none => if a = c then some rest else none

/-- `get_filename_separator` (cli.c:377-407, non-Windows branch):
the basename after the last `/`, or the whole path when it has none. -/
def get_filename_separator (file_path : Str) : Str :=
  match afterLast '/' file_path with
  | some tail => tail
  | none => file_path

/-- Is `c` an ASCII decimal digit? -/
def isDigitC (c : Char) : Bool := '0' ≤ c && c ≤ '9'

/-- Value of a digit string. -/
def digitsToNat (cs : Str) : Nat :=
  cs.foldl (fun a c => a * 10 + (c.toNat - '0'.toNat)) 0

/-- C `atoi`: optional whitespace, optional sign, leading digits. -/
def atoiChars (cs : Str) : Int :=
  let cs := cs.dropWhile (fun c => c = ' ' || c = '\t' || c = '\n' || c = '\r')
  match cs with
  | '-' :: rest => -(digitsToNat (rest.takeWhile isDigitC) : Int)
  | '+' :: rest => (digitsToNat (rest.takeWhile isDigitC) : Int)
  | rest => (digitsToNat (rest.takeWhile isDigitC) : Int)

/-- `atoi` on a Lean string. -/
def atoiS (s : String) : Int := atoiChars s.toList

/-- The overwrite-confirmation loop of `download_file` (cli.c:764-769):
read answers until one is `y` or `n`; `none` models an input stream
that never produces either (the C loop would not terminate). -/
def promptLoop : List String → Option String
  | [] => none
  | s :: rest => if s = "y" ∨ s = "n" then some s else promptLoop rest

/-- The `fgets` loop of `queue_next_cli_cmd` (cli.c:2378-2388 and
2432-2441): lines are read until the line counter reaches `curr`; the
value kept is the last line read, or the default when the file is
empty. -/
def readLoop {α : Type} : List α → Nat → α → α
  | [], _, d => d
  | l :: rest, curr, _ => if curr ≤ 1 then l else readLoop rest (curr - 1) l

/-- One `fprintf("%s\n")` per entry: the byte content of the list file. -/
def joinLines (ls : List Str) : Str := ls.foldr (fun l acc => l ++ '\n' :: acc) []

/-- Accumulator pass of reading a file line by line with `fgets` and
stripping the trailing newline. -/
def readLinesAux : Str → Str → List Str
  | [], cur => if cur = [] then [] else [cur.reverse]
  | c :: rest, cur =>
    if c = '\n' then cur.reverse :: readLinesAux rest []
    else readLinesAux rest (c :: cur)

/-- Lines of a file as read back by repeated `fgets` plus newline strip. -/
def readLines (s : Str) : List Str := readLinesAux s []

/-- A bucket entry returned by `listBuckets` (`storj_bucket_meta_t`). -/
structure BucketMeta where
  id : Str
  name : Str
deriving DecidableEq

/-- A file entry returned by `listFiles` (`storj_file_meta_t`). -/
structure FileMeta where
  id : Str
  filename : Str
deriving DecidableEq

/-- The `id:name` line written for a download work item
(cli.c:1150-1152). -/
def encDl (f : FileMeta) : Str := f.id ++ ':' :: f.filename

/-- The four `STORJ_*` upload environment variables read by
`upload_file` (cli.c:667-670). -/
structure EnvOpts where
  prepare_frame_limit : Option String
  push_frame_limit : Option String
  push_shard_limit : Option String
  rs : Option String
deriving DecidableEq

/-- The argument record of a `storj_bridge_store_file` call: the
`storj_upload_opts_t` fields (cli.c:672-680) plus whether the source
`fopen` succeeded and whether the progress bar callback was chosen. -/
structure StoreCall where
  prepare_frame_limit : Int
  push_frame_limit : Int
  push_shard_limit : Int
  rs : Bool
  bucket_id : Option Str
  file_name : Str
  fd_ok : Bool
  progressBar : Bool
deriving DecidableEq

/-- The `storj_upload_opts_t` initializer of `upload_file`
(cli.c:672-680). -/
def upload_opts (env : EnvOpts) (bucket_id : Option Str) (file_name : Str)
    (fd_ok progressBar : Bool) : StoreCall :=
  { prepare_frame_limit :=
      match env.prepare_frame_limit with
      | some v => atoiS v
      | none => 1,
    push_frame_limit :=
      match env.push_frame_limit with
      | some v => atoiS v
      | none => 64,
    push_shard_limit :=
      match env.push_shard_limit with
      | some v => atoiS v
      | none => 64,
    rs :=
      match env.rs with
      | none => true
      | some v => if v = "false" then false else true,
    bucket_id := bucket_id,
    file_name := file_name,
    fd_ok := fd_ok,
    progressBar := progressBar }

/-- `cli_state_t` (cli.c:35-50): the mutable orchestration state.
Counters are natural numbers (they only ever hold small non-negative
values in the source). -/
structure cli_state_t where
  bucket_name : Option Str := none
  bucket_id : Option Str := none
  file_name : Option Str := none
  file_path : Option Str := none
  file_id : Option Str := none
  total_files : Nat := 0
  curr_up_file : Nat := 0
  curr_cmd_req : Option String := none
  next_cmd_req : Option String := none
deriving DecidableEq

/-- Record of the effects performed during one invocation: bridge
calls in order, prompt/cancel bookkeeping, and terminal conditions
(`exit()` code, undefined behaviour from a null dereference, a prompt
loop that never gets an answer). -/
structure World where
  resolves : List (Option Str × Option Str) := []
  stores : List StoreCall := []
  uploads : List Str := []
  listFilesReqs : Nat := 0
  prompts : Nat := 0
  declines : Nat := 0
  unlinks : Nat := 0
  cancels : Nat := 0
  sigActive : Bool := false
  inFlight : Bool := false
  failRep : Nat := 0
  exited : Option Nat := none
  crashed : Bool := false
  diverged : Bool := false
deriving DecidableEq

/-- The orchestrator configuration: the `cli_state_t` plus the world. -/
structure Conf where
  st : cli_state_t
  w : World
deriving DecidableEq

/-- The zero-initialized state after `memset` (cli.c:1816). -/
def initConf : Conf := { st := {}, w := {} }

/-- Inputs that the environment supplies during one invocation: the
contents of the two list files (`none` = `fopen` fails), whether the
download destination already exists, whether `fopen` of the transfer's
local file succeeds, the interactive answers, and the log level. -/
structure Fs where
  dwnldList : Option (List Str)
  uploadList : Option (List Str)
  destExists : Bool
  openOk : Bool
  inputs : List String
  log_level : Int

/-- Shared tail of `download_file` (cli.c:790-808): start the SIGINT
watcher and call `storj_bridge_resolve_file`. -/
def resolveGo (fid : Option Str) (path : Option Str) (c : Conf) : Conf :=
  { c with w := { c.w with
      sigActive := true,
      inFlight := true,
      resolves := c.w.resolves ++ [(fid, path)] } }

/-- `download_file` (cli.c:753-809).  With a destination path: if the
destination exists, prompt until `y`/`n`; on `n` report and return 1
(no resolve call); on `y` unlink and open; then start the signal
watcher and call resolve.  With a null path the destination is
`stdout`. -/
def download_file (fs : Fs) (file_id : Option Str) (path : Option Str)
    (c : Conf) : Conf :=
  match path with
  | some _ =>
    if fs.destExists then
      let c1 := { c with w := { c.w with prompts := c.w.prompts + 1 } }
      match promptLoop fs.inputs with
      | none => { c1 with w := { c1.w with diverged := true } }
      | some ans =>
        if ans = "n" then
          { c1 with w := { c1.w with declines := c1.w.declines + 1 } }
        else
          let c2 := { c1 with w := { c1.w with unlinks := c1.w.unlinks + 1 } }
          if fs.openOk then resolveGo file_id path c2 else c2
    else
      if fs.openOk then resolveGo file_id path c else c
  | none => resolveGo file_id none c

/-- `upload_file` (cli.c:652-709): open the source, compute the stored
file name with `get_filename_separator`, build the options from the
environment, start the SIGINT watcher and call
`storj_bridge_store_file`.  A null path crashes (`fopen`/`strrchr` on
NULL). -/
def upload_file (env : EnvOpts) (fs : Fs) (bucket_id : Option Str)
    (file_path : Option Str) (c : Conf) : Conf :=
  match file_path with
  | none => { c with w := { c.w with crashed := true } }
  | some p =>
    let opts := upload_opts env bucket_id (get_filename_separator p)
      fs.openOk (decide (fs.log_level = 0))
    { c with w := { c.w with
        sigActive := true,
        inFlight := true,
        stores := c.w.stores ++ [opts],
        uploads := c.w.uploads ++ [p] } }

/-- `queue_next_cli_cmd` (cli.c:2349-2461).  The download branch reads
`dwnld_list.txt` up to the current index, splits the line on `:` and
either dispatches `download_file` for it (advancing the index) or, when
the index has passed `total_files`, prints done and exits 0; when the
list file is absent it dispatches a single `download_file` on the
stored `file_id`/`file_path`.  The upload branch is symmetric over the
upload list file.  A missing `:`-token or a null `file_path` crashes
(`strcat`/`strcpy` on NULL). -/
def queue_next_cli_cmd (fs : Fs) (env : EnvOpts) (c : Conf) : Conf :=
  let s := c.st
  if (s.curr_cmd_req = some "list-files" ∨ s.curr_cmd_req = some "download-file") ∧
     (s.next_cmd_req = some "list-files-1" ∨ s.next_cmd_req = some "download-file-1") then
    if s.next_cmd_req = some "list-files-1" then
      { c with w := { c.w with listFilesReqs := c.w.listFilesReqs + 1 } }
    else
      match fs.dwnldList with
      | some lines =>
        let fp := readLoop lines s.curr_up_file []
        let toks := strtokSplit ':' fp
        if s.curr_up_file ≤ s.total_files then
          match s.file_path, toks[1]? with
          | some dir, some nm =>
            let c1 := { c with st := { s with
                file_id := toks[0]?,
                curr_up_file := s.curr_up_file + 1 } }
            download_file fs toks[0]? (some (dir ++ nm)) c1
          | _, _ => { c with w := { c.w with crashed := true } }
        else { c with w := { c.w with exited := some 0 } }
      | none => download_file fs s.file_id s.file_path c
  else if s.curr_cmd_req = some "upload-file" ∧ s.next_cmd_req = some "upload-file-1" then
    match fs.uploadList with
    | some lines =>
      let fp := readLoop (lines.map some) s.curr_up_file s.file_path
      let c1 := { c with st := { s with file_path := fp } }
      if s.curr_up_file ≤ s.total_files then
        let c2 := upload_file env fs s.bucket_id fp c1
        { c2 with st := { c2.st with curr_up_file := c2.st.curr_up_file + 1 } }
      else { c1 with w := { c1.w with exited := some 0 } }
    | none => upload_file env fs s.bucket_id s.file_path c
  else c

/-- `upload_file_complete` (cli.c:620-640): on failure report it (the
`exit` is commented out); then print the file id — a null file meta is
dereferenced; in single-item mode (`total_files = 0 ∧ curr_up_file = 0`)
exit 0, else advance the queue. -/
def upload_file_complete (fs : Fs) (env : EnvOpts) (status : Int)
    (file : Option Str) (c : Conf) : Conf :=
  let c := { c with w := { c.w with
    inFlight := false,
    failRep := c.w.failRep + (if status = 0 then 0 else 1) } }
  match file with
  | none => { c with w := { c.w with crashed := true } }
  | some _ =>
    if c.st.total_files = 0 ∧ c.st.curr_up_file = 0 then
      { c with w := { c.w with exited := some 0 } }
    else queue_next_cli_cmd fs env c

/-- `download_file_complete` (cli.c:711-741): close the destination,
report failure or success, then exit 0 in single-item mode
(`total_files = 0`) or advance the queue. -/
def download_file_complete (fs : Fs) (env : EnvOpts) (status : Int)
    (c : Conf) : Conf :=
  let c := { c with w := { c.w with
    inFlight := false,
    failRep := c.w.failRep + (if status = 0 then 0 else 1) } }
  if c.st.total_files = 0 then
    { c with w := { c.w with exited := some 0 } }
  else queue_next_cli_cmd fs env c

/-- External events delivered by the event loop: a completion callback
for an upload or download, or a SIGINT. -/
inductive Ev where
  | uploadComplete (status : Int) (file : Option Str)
  | downloadComplete (status : Int)
  | sigint
deriving DecidableEq

/-- One event step.  After `exit()`, a crash, or a diverged prompt no
further code of the invocation runs.  SIGINT with an active watcher
runs `upload_signal_handler`/`download_signal_handler` (cli.c:642-650,
743-751): cancel the in-flight handle and stop/close the watcher. -/
def stepEv (fs : Fs) (env : EnvOpts) (c : Conf) : Ev → Conf
  | e =>
    if c.w.exited.isSome ∨ c.w.crashed ∨ c.w.diverged then c
    else
      match e with
      | .uploadComplete status file => upload_file_complete fs env status file c
      | .downloadComplete status => download_file_complete fs env status c
      | .sigint =>
        if c.w.sigActive then
          { c with w := { c.w with cancels := c.w.cancels + 1, sigActive := false } }
        else c

/-- Run a sequence of events. -/
def runEv (fs : Fs) (env : EnvOpts) : List Ev → Conf → Conf
  | [], c => c
  | e :: evs, c => runEv fs env evs (stepEv fs env c e)

/-- Exit status of the whole process (cli.c:2317-2345): an explicit
`exit(k)` wins; otherwise, once no transfer or signal watcher keeps the
event loop alive, `uv_run` returns and `main` returns its `status`
variable, still 0 on these paths. -/
def processExit (c : Conf) : Option Nat :=
  match c.w.exited with
  | some k => some k
  | none =>
    if c.w.inFlight ∨ c.w.sigActive ∨ c.w.diverged then none else some 0

/-- Messages printed by `get_bucket_id_callback`. -/
inductive BMsg where
  | bucketInfo
  | invalidBucketName
  | invalidCreds
  | reqFailed
  | noBuckets
  | invalidCmd
deriving DecidableEq

/-- Result of the `curr_cmd_req` dispatch chain inside
`get_bucket_id_callback` (cli.c:1294-1317). -/
structure Dsp where
  next_cmd : Option String
  ret : Nat
  msgs : List BMsg
deriving DecidableEq

/-- The `curr_cmd_req` comparison chain run on a bucket-name match. -/
def cmdDispatch (cmd : Option String) : Dsp :=
  if cmd = some "list-files" then ⟨some "list-files-1", 1, []⟩
  else if cmd = some "download-file" then ⟨some "list-files-1", 1, []⟩
  else if cmd = some "upload-file" then ⟨some "upload-file-1", 1, []⟩
  else if cmd = some "get-bucket-id" then ⟨none, 0, []⟩
  else ⟨none, 0, [BMsg.invalidCmd]⟩

/-- Result of the bucket scan loop. -/
structure ScanRes where
  bucket_id : Option Str
  next_cmd : Option String
  ret : Nat
  msgs : List BMsg
deriving DecidableEq

/-- The bucket loop of `get_bucket_id_callback` (cli.c:1280-1334):
scan in order; on the first exact name match print the bucket, record
its id, run the command dispatch and break; otherwise print
"Invalid bucket name" when the last bucket is reached.  With a null
bucket name every bucket is printed. -/
def bucket_scan (cmd : Option String) (bname : Option Str) (total : Nat) :
    List BucketMeta → Nat → ScanRes
  | [], _ => ⟨none, none, 0, []⟩
  | b :: rest, i =>
    match bname with
    | some bn =>
      if bn = b.name then
        let d := cmdDispatch cmd
        ⟨some b.id, d.next_cmd, d.ret, BMsg.bucketInfo :: d.msgs⟩
      else
        let r := bucket_scan cmd bname total rest (i + 1)
        ⟨r.bucket_id, r.next_cmd, r.ret,
          (if total - 1 ≤ i then [BMsg.invalidBucketName] else []) ++ r.msgs⟩
    | none =>
      let r := bucket_scan cmd bname total rest (i + 1)
      ⟨r.bucket_id, r.next_cmd, r.ret, BMsg.bucketInfo :: r.msgs⟩

/-- `get_bucket_id_callback` (cli.c:1265-1343): status-code messages,
the bucket scan, the `cli_state` updates, and — when the dispatch chain
set `ret_status` to 1 — the call to `queue_next_cli_cmd`.  With an
empty collection the loop body never runs, so `next_cmd_req` keeps its
prior value. -/
def get_bucket_id_callback (fs : Fs) (env : EnvOpts) (status_code : Nat)
    (buckets : List BucketMeta) (c : Conf) : Conf × List BMsg :=
  let sm :=
    if status_code = 401 then [BMsg.invalidCreds]
    else if ¬(status_code = 200 ∨ status_code = 304) then [BMsg.reqFailed]
    else if buckets.length = 0 then [BMsg.noBuckets]
    else []
  let r := bucket_scan c.st.curr_cmd_req c.st.bucket_name buckets.length buckets 0
  let st1 := { c.st with
    bucket_id :=
      match r.bucket_id with
      | some x => some x
      | none => c.st.bucket_id,
    next_cmd_req := if buckets.isEmpty then c.st.next_cmd_req else r.next_cmd }
  let c1 := { c with st := st1 }
  (if r.ret = 1 then queue_next_cli_cmd fs env c1 else c1, sm ++ r.msgs)

/-- Per-file accumulator of the loop in `list_files_callback`
(cli.c:1131-1173). -/
structure LfAcc where
  file_id : Option Str
  next_cmd : Option String
  total : Nat
  written : List Str
  removed : Bool
deriving DecidableEq

/-- The file loop of `list_files_callback`: write `id:name` to the
download list when one is open; when the target file name matches,
remove the on-disk list (when open), record the file id, set the next
command and zero `total_files`. -/
def lf_loop (target : Option Str) (listOpen : Bool) :
    List FileMeta → LfAcc → LfAcc
  | [], a => a
  | f :: rest, a =>
    let a1 :=
      if listOpen then { a with written := a.written ++ [encDl f] } else a
    let a2 :=
      match target with
      | some t =>
        if t = f.filename then
          { a1 with
            removed := a1.removed || listOpen,
            file_id := some f.id,
            next_cmd := some "download-file-1",
            total := 0 }
        else a1
      | none => a1
    lf_loop target listOpen rest a2

/-- `list_files_callback` (cli.c:1092-1201): error statuses clean up
and return; `file_id` is nulled; with target `*` the download list is
created (failure to create returns) and `total_files` is set to the
listing size; the file loop runs; for `download-file` the cursor is set
to 1 and the queue started (reading the list that was just written, or
none when no list file exists).  Returns the final configuration and
the lines written to the download list. -/
def list_files_callback (fs : Fs) (env : EnvOpts) (status_code : Nat)
    (files : List FileMeta) (openOk : Bool) (c : Conf) : Conf × List Str :=
  if status_code = 404 ∨ status_code = 400 ∨ status_code = 401 then (c, [])
  else
    let cA := { c with st := { c.st with file_id := none } }
    let listOpen := cA.st.file_name = some ['*']
    if listOpen ∧ ¬openOk then (cA, [])
    else
      let st0 := { cA.st with
        total_files := if listOpen then files.length else cA.st.total_files }
      let a := lf_loop st0.file_name listOpen files
        ⟨none, st0.next_cmd_req, st0.total_files, [], false⟩
      let st1 := { st0 with
        file_id := a.file_id,
        next_cmd_req := a.next_cmd,
        total_files := a.total }
      let fs1 := { fs with dwnldList :=
        if a.removed then none
        else if listOpen then some a.written
        else fs.dwnldList }
      if st1.curr_cmd_req = some "download-file" then
        let st2 := { st1 with
          curr_up_file := 1,
          next_cmd_req := some "download-file-1" }
        (queue_next_cli_cmd fs1 env { cA with st := st2 }, a.written)
      else
        ({ cA with st := st1 }, a.written)

/-- `check_file_path` classifications (cli.c:21-24). -/
def CLI_NO_SUCH_FILE_OR_DIR : Nat := 0
def CLI_VALID_REGULAR_FILE : Nat := 1
def CLI_VALID_DIR : Nat := 2
def CLI_UNKNOWN_FILE_ATTR : Nat := 3

/-- Outcome of `cli_upload_file`: rejected input, a crash
(`strcmp` against a null token), or staged state with the
`listBuckets` request issued. -/
inductive CufRes where
  | invalid
  | crash
  | staged (c : Conf)
deriving DecidableEq

/-- `cli_upload_file` (cli.c:2463-2612).  Regular file: compute the
basename, tokenize the destination, zero the counters; 3 tokens are
accepted when the third equals the basename or `.`; 2 tokens are
accepted when no third token exists; other counts are rejected.
Directory: record the upload-list path and line count (cursor 1 when
nonempty), tokenize, stage.  Staging sets `curr_cmd_req` and
`bucket_name` and issues the `listBuckets` request. -/
def cli_upload_file (pathClass : Nat) (listLines : Option (List Str))
    (listPath : Str) (path barg : Str) (c : Conf) : CufRes :=
  if pathClass = CLI_VALID_REGULAR_FILE then
    let file_name := get_filename_separator path
    let r := validate_cmd_tokenize barg
    let st0 := { c.st with total_files := 0, curr_up_file := 0 }
    if r.count = 3 then
      match r.tokens[2]? with
      | none => .crash
      | some t2 =>
        if file_name = t2 ∨ t2 = ['.'] then
          .staged { c with st := { st0 with
            curr_cmd_req := some "upload-file",
            bucket_name := r.tokens[1]?,
            file_path := some path } }
        else .invalid
    else if r.count = 2 then
      if r.tokens[2]?.isNone then
        .staged { c with st := { st0 with
          curr_cmd_req := some "upload-file",
          bucket_name := r.tokens[1]?,
          file_path := some path } }
      else .invalid
    else .invalid
  else if pathClass = CLI_VALID_DIR then
    let r := validate_cmd_tokenize barg
    let stBase :=
      match listLines with
      | some lines =>
        { c.st with
          file_name := some listPath,
          total_files := lines.length,
          curr_up_file := if lines.length > 0 then 1 else 0 }
      | none => c.st
    .staged { c with st := { stBase with
      curr_cmd_req := some "upload-file",
      bucket_name := r.tokens[1]? } }
  else .invalid

/-- The destination-name defaulting of the single-file `cp` upload path
(cli.c:2021-2042): with a missing third token, a third token equal to
the source basename, or `.`, the destination file name becomes the
source basename; otherwise the third token. -/
def cp_dst_file (local_file_path : Str) (r : TokResult) : Option Str :=
  if r.count = 2 ∨ r.count = 3 then
    let dst_file_name := get_filename_separator local_file_path
    match r.tokens[2]? with
    | none => some dst_file_name
    | some t2 =>
      if dst_file_name = t2 ∨ t2 = ['.'] then some dst_file_name
      else some t2
  else none

/-- The single-file `cp` upload pipeline: `cli_upload_file` validates
the arguments and stages the state (issuing the `listBuckets` request),
and the bucket resolver callback then dispatches the upload queue
(cli.c:2463-2531 followed by cli.c:1265-1343 and 2422-2459). -/
def c9chain (fs : Fs) (env : EnvOpts) (path barg : Str)
    (buckets : List BucketMeta) : Option Conf :=
  match cli_upload_file CLI_VALID_REGULAR_FILE none [] path barg initConf with
  | .staged c1 => some (get_bucket_id_callback fs env 200 buckets c1).1
  | _ => none

/-- The `cli_state` configuration right before `list_files_callback`
fires for a single-file (non-wildcard) download: set by
`cli_download_file` (cli.c:2614-2656) and the bucket resolver. -/
def singleDownloadConf (bname target destPath bid : Str) : Conf :=
  { st := { bucket_name := some bname, bucket_id := some bid,
            file_name := some target, file_path := some destPath,
            file_id := none, total_files := 0, curr_up_file := 0,
            curr_cmd_req := some "download-file",
            next_cmd_req := some "list-files-1" },
    w := {} }

/-- The `cli_state` configuration right before `list_files_callback`
fires for a wildcard (`*`) batch download. -/
def wildcardDownloadConf (bname dirPath bid : Str) : Conf :=
  { st := { bucket_name := some bname, bucket_id := some bid,
            file_name := some ['*'], file_path := some dirPath,
            file_id := none, total_files := 0, curr_up_file := 0,
            curr_cmd_req := some "download-file",
            next_cmd_req := some "list-files-1" },
    w := {} }

/-- A batch state of the queue manager in download mode: cursor `cu`,
`total` items, destination directory `dir`. -/
def dlBatchConf (bname bid dir : Str) (fid : Option Str) (total cu : Nat)
    (w : World) : Conf :=
  { st := { bucket_name := some bname, bucket_id := some bid,
            file_name := some ['*'], file_path := some dir,
            file_id := fid, total_files := total, curr_up_file := cu,
            curr_cmd_req := some "download-file",
            next_cmd_req := some "download-file-1" },
    w := w }

/-- A batch state of the queue manager in upload mode. -/
def ulBatchConf (bid listPath : Str) (fp : Option Str) (total cu : Nat)
    (w : World) : Conf :=
  { st := { bucket_name := none, bucket_id := some bid,
            file_name := some listPath, file_path := fp,
            file_id := none, total_files := total, curr_up_file := cu,
            curr_cmd_req := some "upload-file",
            next_cmd_req := some "upload-file-1" },
    w := w }

/-- Well-formed bridge file metadata for list-file round trips: ids and
names nonempty, free of the `:` separator and of newlines, and the
name is not the wildcard. -/
def wfFile (f : FileMeta) : Prop :=
  f.id ≠ [] ∧ f.filename ≠ [] ∧ ':' ∉ f.id ∧ ':' ∉ f.filename ∧
  '\n' ∉ f.id ∧ '\n' ∉ f.filename ∧ f.filename ≠ ['*']

instance (f : FileMeta) : Decidable (wfFile f) := by
  unfold wfFile
  infer_instance


/-! ### Basic list lemmas -/

theorem listDropCons {α : Type} (l : List α) (i : Nat) (a : α)
    (h : l[i]? = some a) : l.drop i = a :: l.drop (i + 1) := by
  have hlt : i < l.length := by
    by_contra hge
    have hn : l[i]? = none := List.getElem?_eq_none (Nat.le_of_not_lt hge)
    rw [hn] at h
    exact Option.noConfusion h
  have hd := List.drop_eq_getElem_cons hlt
  have ha : l[i] = a := by
    have he := List.getElem?_eq_getElem hlt
    rw [he] at h
    exact Option.some.inj h
  rw [hd, ha]

/-! ### `strtok` lemmas -/

theorem strtokAux_no_delim (d : Char) :
    ∀ (t : Str), d ∉ t → ∀ acc : Str,
      strtokAux d t acc =
        if acc.reverse ++ t = [] then [] else [acc.reverse ++ t]
  | [], _, acc => by simp [strtokAux]
  | c :: t, h, acc => by
      have hc : ¬c = d := fun hcd => h (hcd ▸ List.mem_cons_self c t)
      have ht : d ∉ t := fun hm => h (List.mem_cons_of_mem c hm)
      have := strtokAux_no_delim d t ht (c :: acc)
      simp only [strtokAux, if_neg hc]
      rw [this]
      have hne : acc.reverse ++ c :: t ≠ [] := by simp
      have hne2 : (c :: acc).reverse ++ t ≠ [] := by simp
      rw [if_neg hne2, if_neg hne]
      simp

theorem strtokAux_append (d : Char) :
    ∀ (t : Str), d ∉ t → ∀ (r acc : Str),
      strtokAux d (t ++ d :: r) acc =
        if acc.reverse ++ t = [] then strtokAux d r []
        else (acc.reverse ++ t) :: strtokAux d r []
  | [], _, r, acc => by
      by_cases ha : acc = [] <;> simp [strtokAux, ha]
  | c :: t, h, r, acc => by
      have hc : ¬c = d := fun hcd => h (hcd ▸ List.mem_cons_self c t)
      have ht : d ∉ t := fun hm => h (List.mem_cons_of_mem c hm)
      have ih := strtokAux_append d t ht r (c :: acc)
      simp only [List.cons_append, strtokAux, if_neg hc, List.append_eq]
      rw [ih]
      have hne : acc.reverse ++ c :: t ≠ [] := by simp
      have hne2 : (c :: acc).reverse ++ t ≠ [] := by simp
      rw [if_neg hne2, if_neg hne]
      simp

theorem strtokSplit_no_delim (d : Char) (t : Str) (h : d ∉ t) (hne : t ≠ []) :
    strtokSplit d t = [t] := by
  unfold strtokSplit
  rw [strtokAux_no_delim d t h []]
  simp [hne]

theorem strtokSplit_append (d : Char) (t r : Str) (h : d ∉ t) (hne : t ≠ []) :
    strtokSplit d (t ++ d :: r) = t :: strtokSplit d r := by
  unfold strtokSplit
  rw [strtokAux_append d t h r []]
  simp [hne]

theorem strtokSplit_cons_delim (d : Char) (r : Str) :
    strtokSplit d (d :: r) = strtokSplit d r := by
  simp [strtokSplit, strtokAux]

theorem strtokSplit_enc (f : FileMeta) (h : wfFile f) :
    strtokSplit ':' (encDl f) = [f.id, f.filename] := by
  obtain ⟨hid, hname, hcid, hcname, _, _, _⟩ := h
  unfold encDl
  rw [strtokSplit_append ':' f.id f.filename hcid hid,
      strtokSplit_no_delim ':' f.filename hcname hname]

/-! ### `readLines` / `joinLines` -/

theorem readLinesAux_append :
    ∀ (l : Str), '\n' ∉ l → ∀ (r acc : Str),
      readLinesAux (l ++ '\n' :: r) acc =
        (acc.reverse ++ l) :: readLinesAux r []
  | [], _, r, acc => by simp [readLinesAux]
  | c :: l, h, r, acc => by
      have hc : ¬c = '\n' := fun hcd => h (hcd ▸ List.mem_cons_self c l)
      have hl : '\n' ∉ l := fun hm => h (List.mem_cons_of_mem c hm)
      have ih := readLinesAux_append l hl r (c :: acc)
      simp only [List.cons_append, readLinesAux, if_neg hc, List.append_eq]
      rw [ih]
      simp

theorem readLines_joinLines :
    ∀ (ls : List Str), (∀ l ∈ ls, '\n' ∉ l) →
      readLines (joinLines ls) = ls
  | [], _ => rfl
  | l :: ls, h => by
      have hl : '\n' ∉ l := h l (List.mem_cons_self l ls)
      have hls : ∀ x ∈ ls, '\n' ∉ x := fun x hx => h x (List.mem_cons_of_mem l hx)
      unfold readLines joinLines
      simp only [List.foldr_cons]
      rw [readLinesAux_append l hl]
      simp only [List.reverse_nil, List.nil_append, List.cons.injEq, true_and]
      exact readLines_joinLines ls hls

/-! ### `readLoop` -/

theorem readLoop_eq {α : Type} :
    ∀ (l : List α) (c : Nat) (d x : α), 1 ≤ c → l[c - 1]? = some x →
      readLoop l c d = x
  | y :: rest, c, d, x, hc, hx => by
      by_cases h1 : c ≤ 1
      · have hc1 : c = 1 := Nat.le_antisymm h1 hc
        subst hc1
        have hx0 : y = x := by simpa using hx
        simp [readLoop, hx0]
      · have hc2 : 2 ≤ c := Nat.lt_of_not_le h1
        have : c - 1 - 1 + 1 = c - 1 := by omega
        have hx2 : rest[c - 1 - 1]? = some x := by
          have hcc : c - 1 = (c - 1 - 1) + 1 := by omega
          rw [hcc] at hx
          simpa using hx
        have ih := readLoop_eq rest (c - 1) y x (by omega) hx2
        simp [readLoop, if_neg h1, ih]

/-! ### `firstOcc` -/

theorem leadMatch_self_append : ∀ (s r : Str), leadMatch s (s ++ r) = true
  | [], _ => rfl
  | a :: s, r => by simp [leadMatch, leadMatch_self_append s r]

theorem firstOcc_of_leadMatch (sub l : Str) (h : leadMatch sub l = true) :
    firstOcc sub l = some 0 := by
  cases l <;> simp [firstOcc, h]

theorem firstOcc_self_append (sub r : Str) :
    firstOcc sub (sub ++ r) = some 0 :=
  firstOcc_of_leadMatch sub (sub ++ r) (leadMatch_self_append sub r)

/-! ### Frozen states -/

theorem stepEv_frozen (fs : Fs) (env : EnvOpts) (c : Conf) (e : Ev)
    (h : c.w.exited.isSome ∨ c.w.crashed ∨ c.w.diverged) :
    stepEv fs env c e = c := by
  unfold stepEv
  simp [h]

theorem runEv_frozen (fs : Fs) (env : EnvOpts) :
    ∀ (evs : List Ev) (c : Conf),
      (c.w.exited.isSome ∨ c.w.crashed ∨ c.w.diverged) →
      runEv fs env evs c = c
  | [], _, _ => rfl
  | e :: evs, c, h => by
      rw [runEv, stepEv_frozen fs env c e h, runEv_frozen fs env evs c h]


/-! ### The tokenizer branch for a scheme at position 0 -/

theorem validate_eq_of_zero (cmd : Str) (h : strpos cmd storjScheme = 0) :
    validate_cmd_tokenize cmd =
      ⟨((strtokSplit '/' cmd).length : Int), strtokSplit '/' cmd, false⟩ := by
  simp [validate_cmd_tokenize, h]

/-- The tokenizer branch for a strictly positive `strpos` result. -/
theorem validate_eq_of_pos (cmd : Str) (k : Nat)
    (h : strpos cmd storjScheme = ((k + 1 : Nat) : Int)) :
    validate_cmd_tokenize cmd = ⟨((k + 1 : Nat) : Int), [], false⟩ := by
  have h0 : ¬((k + 1 : Nat) : Int) = 0 := by omega
  have hm1 : ¬((k + 1 : Nat) : Int) = -1 := by omega
  simp only [validate_cmd_tokenize, h, if_neg h0, decide_eq_false hm1]

/-! ### Claim C5 -/

/-- C5 (counterexample): for the input `,,storj://b` the scheme prefix is
not at position 0, yet `validate_cmd_tokenize` prints no InvalidUri
message and returns 2 — the same value as the token count of a valid
bucket-only URI — so the claim "every input without the prefix at
position 0 reports InvalidUri" is false. -/
theorem C5_offset_scheme_cex :
    strpos ",,storj://b".toList storjScheme ≠ 0 ∧
    (validate_cmd_tokenize ",,storj://b".toList).invalidMsg = false ∧
    (validate_cmd_tokenize ",,storj://b".toList).count = 2 ∧
    (validate_cmd_tokenize ",,storj://b".toList).tokens = [] := by
  decide

/-- C5 (amended): the tokenizer reports InvalidUri exactly when the
scheme occurs nowhere in the input (returning -1 and no tokens); when
the scheme first occurs at a positive position k it silently returns k
with no tokens; when the scheme is at position 0, `storj://bucket` and
`storj://bucket/name` yield exactly the bucket and name substrings as
tokens 1 and 2. -/
theorem C5_tokenizer_amended (s bucket nm : Str) :
    (firstOcc storjScheme s = none →
      validate_cmd_tokenize s = ⟨-1, [], true⟩) ∧
    (∀ k : Nat, firstOcc storjScheme s = some (k + 1) →
      validate_cmd_tokenize s = ⟨((k + 1 : Nat) : Int), [], false⟩) ∧
    (bucket ≠ [] → '/' ∉ bucket →
      validate_cmd_tokenize (storjScheme ++ bucket) =
        ⟨2, [storjSchemeTok, bucket], false⟩) ∧
    (bucket ≠ [] → '/' ∉ bucket → nm ≠ [] → '/' ∉ nm →
      validate_cmd_tokenize (storjScheme ++ bucket ++ '/' :: nm) =
        ⟨3, [storjSchemeTok, bucket, nm], false⟩) := by
  refine ⟨?_, ?_, ?_, ?_⟩
  · intro h
    simp [validate_cmd_tokenize, strpos, h]
  · intro k h
    have hs : strpos s storjScheme = ((k + 1 : Nat) : Int) := by
      unfold strpos
      rw [h]
    exact validate_eq_of_pos s k hs
  · intro hb hsl
    have h0 : strpos (storjScheme ++ bucket) storjScheme = 0 := by
      unfold strpos
      rw [firstOcc_self_append]
      rfl
    have hshape : storjScheme ++ bucket = storjSchemeTok ++ '/' :: ('/' :: bucket) := rfl
    have htoks : strtokSplit '/' (storjScheme ++ bucket) = [storjSchemeTok, bucket] := by
      rw [hshape,
        strtokSplit_append '/' storjSchemeTok ('/' :: bucket) (by decide) (by decide),
        strtokSplit_cons_delim, strtokSplit_no_delim '/' bucket hsl hb]
    rw [validate_eq_of_zero _ h0, htoks]
    rfl
  · intro hb hsl hn hnsl
    have h0 : strpos (storjScheme ++ bucket ++ '/' :: nm) storjScheme = 0 := by
      unfold strpos
      have hs : storjScheme ++ bucket ++ '/' :: nm =
          storjScheme ++ (bucket ++ '/' :: nm) := by simp
      rw [hs, firstOcc_self_append]
      rfl
    have hshape : storjScheme ++ bucket ++ '/' :: nm =
        storjSchemeTok ++ '/' :: ('/' :: (bucket ++ '/' :: nm)) := by simp; rfl
    have htoks : strtokSplit '/' (storjScheme ++ bucket ++ '/' :: nm) =
        [storjSchemeTok, bucket, nm] := by
      rw [hshape,
        strtokSplit_append '/' storjSchemeTok ('/' :: (bucket ++ '/' :: nm))
          (by decide) (by decide),
        strtokSplit_cons_delim,
        strtokSplit_append '/' bucket nm hsl hb,
        strtokSplit_no_delim '/' nm hnsl hn]
    rw [validate_eq_of_zero _ h0, htoks]
    rfl

/-- C5 witness: the amended theorem applied at concrete inputs. -/
theorem C5_tokenizer_amended_witness :
    validate_cmd_tokenize "bucket/name".toList = ⟨-1, [], true⟩ ∧
    validate_cmd_tokenize "storj://mybucket/report.pdf".toList =
      ⟨3, [storjSchemeTok, "mybucket".toList, "report.pdf".toList], false⟩ := by
  constructor
  · exact (C5_tokenizer_amended "bucket/name".toList "mybucket".toList
      "report.pdf".toList).1 (by decide)
  · have h := (C5_tokenizer_amended "bucket/name".toList "mybucket".toList
      "report.pdf".toList).2.2.2 (by decide) (by decide) (by decide) (by decide)
    have heq : "storj://mybucket/report.pdf".toList =
        storjScheme ++ "mybucket".toList ++ '/' :: "report.pdf".toList := by decide
    rw [heq]
    exact h

/-! ### Claim C10 -/

/-- C10: with the four `STORJ_*` environment variables unset, every
`upload_file` call passes the store operation
`prepare_frame_limit = 1`, `push_frame_limit = 64`,
`push_shard_limit = 64`, and erasure coding enabled; for any
environment, erasure coding is disabled exactly when
`STORJ_REED_SOLOMON` is the string `"false"`. -/
theorem C10_upload_opts (env : EnvOpts) (fs : Fs) (bid : Option Str)
    (p : Str) (c : Conf) :
    (upload_file ⟨none, none, none, none⟩ fs bid (some p) c).w.stores =
      c.w.stores ++ [⟨1, 64, 64, true, bid, get_filename_separator p,
        fs.openOk, decide (fs.log_level = 0)⟩] ∧
    (upload_file env fs bid (some p) c).w.stores =
      c.w.stores ++ [upload_opts env bid (get_filename_separator p)
        fs.openOk (decide (fs.log_level = 0))] ∧
    ((upload_opts env bid (get_filename_separator p) fs.openOk
        (decide (fs.log_level = 0))).rs = false ↔ env.rs = some "false") := by
  refine ⟨?_, ?_, ?_⟩
  · simp [upload_file, upload_opts]
  · simp [upload_file]
  · unfold upload_opts
    cases henv : env.rs with
    | none => simp
    | some v =>
      by_cases hv : v = "false" <;> simp [hv]


/-! ### Queue-manager step lemmas: download batch -/

theorem dl_dispatch (fs : Fs) (env : EnvOpts) (files : List FileMeta)
    (bname bid dir : Str) (f : FileMeta)
    (hfs : fs.dwnldList = some (files.map encDl))
    (hde : fs.destExists = false) (hok : fs.openOk = true)
    (cu : Nat) (hcu : 1 ≤ cu) (hget : files[cu - 1]? = some f)
    (hle : cu ≤ files.length) (hwf : wfFile f)
    (fid : Option Str) (w : World) :
    queue_next_cli_cmd fs env (dlBatchConf bname bid dir fid files.length cu w) =
      dlBatchConf bname bid dir (some f.id) files.length (cu + 1)
        { w with
          sigActive := true,
          inFlight := true,
          resolves := w.resolves ++ [(some f.id, some (dir ++ f.filename))] } := by
  have hrl : readLoop (files.map encDl) cu [] = encDl f := by
    refine readLoop_eq _ cu _ _ hcu ?_
    rw [List.getElem?_map, hget]
    rfl
  have htok : strtokSplit ':' (encDl f) = [f.id, f.filename] := strtokSplit_enc f hwf
  simp [queue_next_cli_cmd, dlBatchConf, hfs, hrl, htok, hle,
    download_file, hde, hok, resolveGo]

theorem dl_step (fs : Fs) (env : EnvOpts) (files : List FileMeta)
    (bname bid dir : Str) (f : FileMeta)
    (hfs : fs.dwnldList = some (files.map encDl))
    (hde : fs.destExists = false) (hok : fs.openOk = true)
    (cu : Nat) (hcu : 1 ≤ cu) (hget : files[cu - 1]? = some f)
    (hle : cu ≤ files.length) (hwf : wfFile f)
    (fid : Option Str) (w : World) (status : Int)
    (hex : w.exited = none) (hcr : w.crashed = false) (hdv : w.diverged = false) :
    stepEv fs env (dlBatchConf bname bid dir fid files.length cu w)
        (.downloadComplete status) =
      dlBatchConf bname bid dir (some f.id) files.length (cu + 1)
        { w with
          failRep := w.failRep + (if status = 0 then 0 else 1),
          sigActive := true,
          inFlight := true,
          resolves := w.resolves ++ [(some f.id, some (dir ++ f.filename))] } := by
  have htot : ¬files.length = 0 := by omega
  have hmid := dl_dispatch fs env files bname bid dir f hfs hde hok cu hcu hget hle hwf fid
    { w with inFlight := false, failRep := w.failRep + (if status = 0 then 0 else 1) }
  have key : stepEv fs env (dlBatchConf bname bid dir fid files.length cu w)
      (.downloadComplete status) =
      queue_next_cli_cmd fs env (dlBatchConf bname bid dir fid files.length cu
        { w with inFlight := false,
                 failRep := w.failRep + (if status = 0 then 0 else 1) }) := by
    simp [stepEv, dlBatchConf, hex, hcr, hdv, download_file_complete, htot]
  rw [key, hmid]

theorem dl_step_done (fs : Fs) (env : EnvOpts) (files : List FileMeta)
    (bname bid dir : Str)
    (hfs : fs.dwnldList = some (files.map encDl))
    (fid : Option Str) (w : World) (status : Int)
    (hex : w.exited = none) (hcr : w.crashed = false) (hdv : w.diverged = false) :
    stepEv fs env (dlBatchConf bname bid dir fid files.length (files.length + 1) w)
        (.downloadComplete status) =
      dlBatchConf bname bid dir fid files.length (files.length + 1)
        { w with
          inFlight := false,
          failRep := w.failRep + (if status = 0 then 0 else 1),
          exited := some 0 } := by
  by_cases hN : files.length = 0
  · simp [stepEv, dlBatchConf, hex, hcr, hdv, download_file_complete, hN]
  · have hgt : ¬files.length + 1 ≤ files.length := by omega
    simp [stepEv, dlBatchConf, hex, hcr, hdv, download_file_complete, hN,
      queue_next_cli_cmd, hfs, hgt]

theorem dl_sigint (fs : Fs) (env : EnvOpts)
    (bname bid dir : Str) (fid : Option Str) (total cu : Nat) (w : World)
    (hex : w.exited = none) (hcr : w.crashed = false) (hdv : w.diverged = false)
    (hsig : w.sigActive = true) :
    stepEv fs env (dlBatchConf bname bid dir fid total cu w) .sigint =
      dlBatchConf bname bid dir fid total cu
        { w with cancels := w.cancels + 1, sigActive := false } := by
  simp [stepEv, dlBatchConf, hex, hcr, hdv, hsig]

/-! ### Queue-manager step lemmas: upload batch -/

theorem ul_dispatch (fs : Fs) (env : EnvOpts) (lines : List Str)
    (bid listPath : Str) (l : Str)
    (hfs : fs.uploadList = some lines)
    (cu : Nat) (hcu : 1 ≤ cu) (hget : lines[cu - 1]? = some l)
    (hle : cu ≤ lines.length)
    (fp : Option Str) (w : World) :
    queue_next_cli_cmd fs env (ulBatchConf bid listPath fp lines.length cu w) =
      ulBatchConf bid listPath (some l) lines.length (cu + 1)
        { w with
          sigActive := true,
          inFlight := true,
          stores := w.stores ++ [upload_opts env (some bid)
            (get_filename_separator l) fs.openOk (decide (fs.log_level = 0))],
          uploads := w.uploads ++ [l] } := by
  have hrl : readLoop (lines.map some) cu fp = some l := by
    refine readLoop_eq _ cu _ _ hcu ?_
    rw [List.getElem?_map, hget]
    rfl
  simp [queue_next_cli_cmd, ulBatchConf, hfs, hrl, hle, upload_file]

theorem ul_step (fs : Fs) (env : EnvOpts) (lines : List Str)
    (bid listPath : Str) (l : Str)
    (hfs : fs.uploadList = some lines)
    (cu : Nat) (hcu : 1 ≤ cu) (hget : lines[cu - 1]? = some l)
    (hle : cu ≤ lines.length)
    (fp : Option Str) (w : World) (status : Int) (m : Str)
    (hex : w.exited = none) (hcr : w.crashed = false) (hdv : w.diverged = false) :
    stepEv fs env (ulBatchConf bid listPath fp lines.length cu w)
        (.uploadComplete status (some m)) =
      ulBatchConf bid listPath (some l) lines.length (cu + 1)
        { w with
          failRep := w.failRep + (if status = 0 then 0 else 1),
          sigActive := true,
          inFlight := true,
          stores := w.stores ++ [upload_opts env (some bid)
            (get_filename_separator l) fs.openOk (decide (fs.log_level = 0))],
          uploads := w.uploads ++ [l] } := by
  have hcu0 : ¬cu = 0 := by omega
  have hmid := ul_dispatch fs env lines bid listPath l hfs cu hcu hget hle fp
    { w with inFlight := false, failRep := w.failRep + (if status = 0 then 0 else 1) }
  have key : stepEv fs env (ulBatchConf bid listPath fp lines.length cu w)
      (.uploadComplete status (some m)) =
      queue_next_cli_cmd fs env (ulBatchConf bid listPath fp lines.length cu
        { w with inFlight := false,
                 failRep := w.failRep + (if status = 0 then 0 else 1) }) := by
    simp [stepEv, ulBatchConf, hex, hcr, hdv, upload_file_complete, hcu0]
  rw [key, hmid]

theorem ul_step_done (fs : Fs) (env : EnvOpts) (lines : List Str)
    (bid listPath : Str)
    (hfs : fs.uploadList = some lines)
    (fp : Option Str) (w : World) (status : Int) (m : Str)
    (hex : w.exited = none) (hcr : w.crashed = false) (hdv : w.diverged = false) :
    stepEv fs env (ulBatchConf bid listPath fp lines.length (lines.length + 1) w)
        (.uploadComplete status (some m)) =
      ulBatchConf bid listPath (readLoop (lines.map some) (lines.length + 1) fp)
        lines.length (lines.length + 1)
        { w with
          inFlight := false,
          failRep := w.failRep + (if status = 0 then 0 else 1),
          exited := some 0 } := by
  have hgt : ¬lines.length + 1 ≤ lines.length := by omega
  have hcu0 : ¬lines.length + 1 = 0 := by omega
  simp [stepEv, ulBatchConf, hex, hcr, hdv, upload_file_complete, hcu0,
    queue_next_cli_cmd, hfs, hgt]

/-! ### Dispatch/completion composition lemmas -/

theorem dl_complete_as_queue (fs : Fs) (env : EnvOpts) (bname bid dir : Str)
    (fid : Option Str) (total cu : Nat) (w w2 : World) (status : Int)
    (htot : ¬total = 0)
    (hex : w.exited = none) (hcr : w.crashed = false) (hdv : w.diverged = false)
    (hw2 : w2 = { w with
      inFlight := false,
      failRep := w.failRep + (if status = 0 then 0 else 1) }) :
    stepEv fs env (dlBatchConf bname bid dir fid total cu w)
        (.downloadComplete status) =
      queue_next_cli_cmd fs env (dlBatchConf bname bid dir fid total cu w2) := by
  subst hw2
  simp [stepEv, dlBatchConf, hex, hcr, hdv, download_file_complete, htot]

theorem ul_complete_as_queue (fs : Fs) (env : EnvOpts) (bid listPath : Str)
    (fp : Option Str) (total cu : Nat) (w w2 : World) (status : Int) (m : Str)
    (hcu0 : ¬cu = 0)
    (hex : w.exited = none) (hcr : w.crashed = false) (hdv : w.diverged = false)
    (hw2 : w2 = { w with
      inFlight := false,
      failRep := w.failRep + (if status = 0 then 0 else 1) }) :
    stepEv fs env (ulBatchConf bid listPath fp total cu w)
        (.uploadComplete status (some m)) =
      queue_next_cli_cmd fs env (ulBatchConf bid listPath fp total cu w2) := by
  subst hw2
  simp [stepEv, ulBatchConf, hex, hcr, hdv, upload_file_complete, hcu0]

theorem dl_dispatch_done (fs : Fs) (env : EnvOpts) (files : List FileMeta)
    (bname bid dir : Str)
    (hfs : fs.dwnldList = some (files.map encDl))
    (fid : Option Str) (w : World) :
    queue_next_cli_cmd fs env
        (dlBatchConf bname bid dir fid files.length (files.length + 1) w) =
      dlBatchConf bname bid dir fid files.length (files.length + 1)
        { w with exited := some 0 } := by
  have hgt : ¬files.length + 1 ≤ files.length := by omega
  simp [queue_next_cli_cmd, dlBatchConf, hfs, hgt]

theorem ul_dispatch_done (fs : Fs) (env : EnvOpts) (lines : List Str)
    (bid listPath : Str)
    (hfs : fs.uploadList = some lines)
    (fp : Option Str) (w : World) :
    queue_next_cli_cmd fs env
        (ulBatchConf bid listPath fp lines.length (lines.length + 1) w) =
      ulBatchConf bid listPath (readLoop (lines.map some) (lines.length + 1) fp)
        lines.length (lines.length + 1) { w with exited := some 0 } := by
  have hgt : ¬lines.length + 1 ≤ lines.length := by omega
  simp [queue_next_cli_cmd, ulBatchConf, hfs, hgt]

/-- The download batch: one dispatch at cursor `cu` followed by the
remaining completions transfers exactly the remaining items in order
and then exits 0. -/
theorem dl_batch_full (fs : Fs) (env : EnvOpts) (files : List FileMeta)
    (bname bid dir : Str)
    (hfs : fs.dwnldList = some (files.map encDl))
    (hde : fs.destExists = false) (hok : fs.openOk = true)
    (hwf : ∀ f ∈ files, wfFile f) :
    ∀ (j cu : Nat) (fid : Option Str) (w : World),
      cu + j = files.length + 1 → 1 ≤ cu →
      w.exited = none → w.crashed = false → w.diverged = false →
      (runEv fs env (List.replicate j (Ev.downloadComplete 0))
          (queue_next_cli_cmd fs env
            (dlBatchConf bname bid dir fid files.length cu w))).w.resolves =
        w.resolves ++ (files.drop (cu - 1)).map
          (fun f => (some f.id, some (dir ++ f.filename))) ∧
      (runEv fs env (List.replicate j (Ev.downloadComplete 0))
          (queue_next_cli_cmd fs env
            (dlBatchConf bname bid dir fid files.length cu w))).w.exited = some 0
  | 0, cu, fid, w, hk, hcu, hex, hcr, hdv => by
      have hcueq : cu = files.length + 1 := by omega
      subst hcueq
      rw [List.replicate_zero, runEv,
        dl_dispatch_done fs env files bname bid dir hfs fid w]
      constructor
      · simp [dlBatchConf]
      · simp [dlBatchConf]
  | j + 1, cu, fid, w, hk, hcu, hex, hcr, hdv => by
      have hle : cu ≤ files.length := by omega
      have hlt : cu - 1 < files.length := by omega
      have hget : files[cu - 1]? = some files[cu - 1] := List.getElem?_eq_getElem hlt
      have hwff : wfFile files[cu - 1] := hwf _ (List.getElem_mem hlt)
      rw [dl_dispatch fs env files bname bid dir files[cu - 1] hfs hde hok cu hcu
          hget hle hwff fid w,
        List.replicate_succ, runEv,
        dl_complete_as_queue fs env bname bid dir (some files[cu - 1].id)
          files.length (cu + 1)
          { w with
            sigActive := true,
            inFlight := true,
            resolves := w.resolves ++ [(some files[cu - 1].id,
              some (dir ++ files[cu - 1].filename))] }
          { w with
            sigActive := true,
            inFlight := false,
            resolves := w.resolves ++ [(some files[cu - 1].id,
              some (dir ++ files[cu - 1].filename))],
            failRep := w.failRep + (if (0 : Int) = 0 then 0 else 1) }
          0 (by omega) hex hcr hdv rfl]
      have ih := dl_batch_full fs env files bname bid dir hfs hde hok hwf j (cu + 1)
        (some files[cu - 1].id)
        { w with
          sigActive := true,
          inFlight := false,
          resolves := w.resolves ++ [(some files[cu - 1].id,
            some (dir ++ files[cu - 1].filename))],
          failRep := w.failRep + (if (0 : Int) = 0 then 0 else 1) }
        (by omega) (by omega) hex hcr hdv
      refine ⟨?_, ih.2⟩
      rw [ih.1]
      have hcc : cu - 1 + 1 = cu := by omega
      have hdrop : files.drop (cu - 1) = files[cu - 1] :: files.drop cu := by
        have hd := listDropCons files (cu - 1) _ hget
        rwa [hcc] at hd
      rw [hdrop]
      simp

/-- The upload batch: one dispatch at cursor `cu` followed by the
remaining completions uploads exactly the remaining lines in order and
then exits 0. -/
theorem ul_batch_full (fs : Fs) (env : EnvOpts) (lines : List Str)
    (bid listPath : Str) (m : Str)
    (hfs : fs.uploadList = some lines) :
    ∀ (j cu : Nat) (fp : Option Str) (w : World),
      cu + j = lines.length + 1 → 1 ≤ cu →
      w.exited = none → w.crashed = false → w.diverged = false →
      (runEv fs env (List.replicate j (Ev.uploadComplete 0 (some m)))
          (queue_next_cli_cmd fs env
            (ulBatchConf bid listPath fp lines.length cu w))).w.uploads =
        w.uploads ++ lines.drop (cu - 1) ∧
      (runEv fs env (List.replicate j (Ev.uploadComplete 0 (some m)))
          (queue_next_cli_cmd fs env
            (ulBatchConf bid listPath fp lines.length cu w))).w.exited = some 0
  | 0, cu, fp, w, hk, hcu, hex, hcr, hdv => by
      have hcueq : cu = lines.length + 1 := by omega
      subst hcueq
      rw [List.replicate_zero, runEv,
        ul_dispatch_done fs env lines bid listPath hfs fp w]
      constructor
      · simp [ulBatchConf]
      · simp [ulBatchConf]
  | j + 1, cu, fp, w, hk, hcu, hex, hcr, hdv => by
      have hle : cu ≤ lines.length := by omega
      have hlt : cu - 1 < lines.length := by omega
      have hget : lines[cu - 1]? = some lines[cu - 1] := List.getElem?_eq_getElem hlt
      rw [ul_dispatch fs env lines bid listPath lines[cu - 1] hfs cu hcu hget hle fp w,
        List.replicate_succ, runEv,
        ul_complete_as_queue fs env bid listPath (some lines[cu - 1])
          lines.length (cu + 1)
          { w with
            sigActive := true,
            inFlight := true,
            stores := w.stores ++ [upload_opts env (some bid)
              (get_filename_separator lines[cu - 1]) fs.openOk
              (decide (fs.log_level = 0))],
            uploads := w.uploads ++ [lines[cu - 1]] }
          { w with
            sigActive := true,
            inFlight := false,
            stores := w.stores ++ [upload_opts env (some bid)
              (get_filename_separator lines[cu - 1]) fs.openOk
              (decide (fs.log_level = 0))],
            uploads := w.uploads ++ [lines[cu - 1]],
            failRep := w.failRep + (if (0 : Int) = 0 then 0 else 1) }
          0 m (by omega) hex hcr hdv rfl]
      have ih := ul_batch_full fs env lines bid listPath m hfs j (cu + 1)
        (some lines[cu - 1])
        { w with
          sigActive := true,
          inFlight := false,
          stores := w.stores ++ [upload_opts env (some bid)
            (get_filename_separator lines[cu - 1]) fs.openOk
            (decide (fs.log_level = 0))],
          uploads := w.uploads ++ [lines[cu - 1]],
          failRep := w.failRep + (if (0 : Int) = 0 then 0 else 1) }
        (by omega) (by omega) hex hcr hdv
      refine ⟨?_, ih.2⟩
      rw [ih.1]
      have hcc : cu - 1 + 1 = cu := by omega
      have hdrop : lines.drop (cu - 1) = lines[cu - 1] :: lines.drop cu := by
        have hd := listDropCons lines (cu - 1) _ hget
        rwa [hcc] at hd
      rw [hdrop]
      simp

/-! ### Claim C1 -/

/-- C1: for every batch of N work items (upload list or download list
with N lines), the queue manager invokes the transfer executor exactly
N times, on the items in the order of their lines, and after the Nth
completion callback it exits 0 without dispatching any further
transfer (every later event leaves the state unchanged). -/
theorem C1_batch_trace (fs : Fs) (env : EnvOpts)
    (bname bid dir listPath : Str) (files : List FileMeta)
    (lines : List Str) (m : Str)
    (hfs : fs.dwnldList = some (files.map encDl))
    (hde : fs.destExists = false) (hok : fs.openOk = true)
    (hwf : ∀ f ∈ files, wfFile f)
    (hul : fs.uploadList = some lines) :
    ((runEv fs env (List.replicate files.length (Ev.downloadComplete 0))
        (queue_next_cli_cmd fs env
          (dlBatchConf bname bid dir none files.length 1 {}))).w.resolves =
      files.map (fun f => (some f.id, some (dir ++ f.filename))) ∧
     (runEv fs env (List.replicate files.length (Ev.downloadComplete 0))
        (queue_next_cli_cmd fs env
          (dlBatchConf bname bid dir none files.length 1 {}))).w.exited = some 0 ∧
     ∀ evs, runEv fs env evs
        (runEv fs env (List.replicate files.length (Ev.downloadComplete 0))
          (queue_next_cli_cmd fs env
            (dlBatchConf bname bid dir none files.length 1 {}))) =
        runEv fs env (List.replicate files.length (Ev.downloadComplete 0))
          (queue_next_cli_cmd fs env
            (dlBatchConf bname bid dir none files.length 1 {}))) ∧
    ((runEv fs env (List.replicate lines.length (Ev.uploadComplete 0 (some m)))
        (queue_next_cli_cmd fs env
          (ulBatchConf bid listPath none lines.length 1 {}))).w.uploads = lines ∧
     (runEv fs env (List.replicate lines.length (Ev.uploadComplete 0 (some m)))
        (queue_next_cli_cmd fs env
          (ulBatchConf bid listPath none lines.length 1 {}))).w.exited = some 0 ∧
     ∀ evs, runEv fs env evs
        (runEv fs env (List.replicate lines.length (Ev.uploadComplete 0 (some m)))
          (queue_next_cli_cmd fs env
            (ulBatchConf bid listPath none lines.length 1 {}))) =
        runEv fs env (List.replicate lines.length (Ev.uploadComplete 0 (some m)))
          (queue_next_cli_cmd fs env
            (ulBatchConf bid listPath none lines.length 1 {}))) := by
  have hdl := dl_batch_full fs env files bname bid dir hfs hde hok hwf
    files.length 1 none {} (by omega) (by omega) rfl rfl rfl
  have hup := ul_batch_full fs env lines bid listPath m hul
    lines.length 1 none {} (by omega) (by omega) rfl rfl rfl
  refine ⟨⟨?_, hdl.2, ?_⟩, ⟨?_, hup.2, ?_⟩⟩
  · rw [hdl.1]
    simp
  · intro evs
    exact runEv_frozen fs env evs _ (Or.inl (by rw [hdl.2]; rfl))
  · rw [hup.1]
    simp
  · intro evs
    exact runEv_frozen fs env evs _ (Or.inl (by rw [hup.2]; rfl))

/-- C1 witness: a one-item download batch over the listing line `i:f`
resolves exactly file `i` to `d/f` and exits 0, and a one-item upload
batch over the list line `u` uploads exactly `u` and exits 0. -/
theorem C1_batch_trace_witness :
    (runEv ⟨some [['i', ':', 'f']], some [['u']], false, true, [], 0⟩
        ⟨none, none, none, none⟩ (List.replicate 1 (Ev.downloadComplete 0))
        (queue_next_cli_cmd ⟨some [['i', ':', 'f']], some [['u']], false, true, [], 0⟩
          ⟨none, none, none, none⟩
          (dlBatchConf ['b'] ['B'] ['d', '/'] none 1 1 {}))).w.resolves =
      [(some ['i'], some ['d', '/', 'f'])] ∧
    (runEv ⟨some [['i', ':', 'f']], some [['u']], false, true, [], 0⟩
        ⟨none, none, none, none⟩ (List.replicate 1 (Ev.downloadComplete 0))
        (queue_next_cli_cmd ⟨some [['i', ':', 'f']], some [['u']], false, true, [], 0⟩
          ⟨none, none, none, none⟩
          (dlBatchConf ['b'] ['B'] ['d', '/'] none 1 1 {}))).w.exited = some 0 ∧
    (runEv ⟨some [['i', ':', 'f']], some [['u']], false, true, [], 0⟩
        ⟨none, none, none, none⟩
        (List.replicate 1 (Ev.uploadComplete 0 (some ['m'])))
        (queue_next_cli_cmd ⟨some [['i', ':', 'f']], some [['u']], false, true, [], 0⟩
          ⟨none, none, none, none⟩
          (ulBatchConf ['B'] ['l'] none 1 1 {}))).w.uploads = [['u']] ∧
    (runEv ⟨some [['i', ':', 'f']], some [['u']], false, true, [], 0⟩
        ⟨none, none, none, none⟩
        (List.replicate 1 (Ev.uploadComplete 0 (some ['m'])))
        (queue_next_cli_cmd ⟨some [['i', ':', 'f']], some [['u']], false, true, [], 0⟩
          ⟨none, none, none, none⟩
          (ulBatchConf ['B'] ['l'] none 1 1 {}))).w.exited = some 0 := by
  have h := C1_batch_trace ⟨some [['i', ':', 'f']], some [['u']], false, true, [], 0⟩
    ⟨none, none, none, none⟩ ['b'] ['B'] ['d', '/'] ['l']
    [⟨['i'], ['f']⟩] [['u']] ['m'] (by decide) rfl rfl (by decide) rfl
  exact ⟨h.1.1, h.1.2.1, h.2.1, h.2.2.1⟩

/-! ### Claim C2 -/

/-- C2 (counterexample): in a two-item download batch with item 1 in
flight and its signal watcher armed, a SIGINT cancels the live handle
(`cancels = 1`), yet when the cancelled transfer's completion callback
fires with a non-zero status the queue manager dispatches item 2 — so
the claim that no item k+1..N is ever dispatched after the cancellation
is false on this input. -/
theorem C2_cancel_cex :
    (queue_next_cli_cmd ⟨some [['a', ':', 'x'], ['b', ':', 'y']], none, false, true, [], 0⟩
        ⟨none, none, none, none⟩
        (dlBatchConf ['n'] ['i'] ['/'] none 2 1 {})).w.resolves =
      [(some ['a'], some ['/', 'x'])] ∧
    (queue_next_cli_cmd ⟨some [['a', ':', 'x'], ['b', ':', 'y']], none, false, true, [], 0⟩
        ⟨none, none, none, none⟩
        (dlBatchConf ['n'] ['i'] ['/'] none 2 1 {})).w.sigActive = true ∧
    (runEv ⟨some [['a', ':', 'x'], ['b', ':', 'y']], none, false, true, [], 0⟩
        ⟨none, none, none, none⟩ [Ev.sigint, Ev.downloadComplete 1]
        (queue_next_cli_cmd ⟨some [['a', ':', 'x'], ['b', ':', 'y']], none, false, true, [], 0⟩
          ⟨none, none, none, none⟩
          (dlBatchConf ['n'] ['i'] ['/'] none 2 1 {}))).w.cancels = 1 ∧
    (runEv ⟨some [['a', ':', 'x'], ['b', ':', 'y']], none, false, true, [], 0⟩
        ⟨none, none, none, none⟩ [Ev.sigint, Ev.downloadComplete 1]
        (queue_next_cli_cmd ⟨some [['a', ':', 'x'], ['b', ':', 'y']], none, false, true, [], 0⟩
          ⟨none, none, none, none⟩
          (dlBatchConf ['n'] ['i'] ['/'] none 2 1 {}))).w.resolves =
      [(some ['a'], some ['/', 'x']), (some ['b'], some ['/', 'y'])] := by
  decide

/-- C2 (amended): when the interrupt arrives while item k of an N-item
download batch is in flight, the live handle is cancelled
(`storj_bridge_resolve_file_cancel` runs), but the invocation does not
stop there: when the cancelled transfer's completion callback fires,
the queue manager advances exactly as on any completion — it dispatches
item k+1 when k < N, and exits 0 when k = N. -/
theorem C2_cancel_amended (fs : Fs) (env : EnvOpts)
    (bname bid dir : Str) (files : List FileMeta) (k : Nat)
    (fid : Option Str) (w : World) (status : Int)
    (hfs : fs.dwnldList = some (files.map encDl))
    (hde : fs.destExists = false) (hok : fs.openOk = true)
    (hwf : ∀ f ∈ files, wfFile f)
    (hk1 : 1 ≤ k) (hkN : k ≤ files.length)
    (hex : w.exited = none) (hcr : w.crashed = false) (hdv : w.diverged = false)
    (hsig : w.sigActive = true) :
    ((stepEv fs env (dlBatchConf bname bid dir fid files.length (k + 1) w)
        Ev.sigint).w.cancels = w.cancels + 1) ∧
    (∀ f, k < files.length → files[k]? = some f →
      (runEv fs env [Ev.sigint, Ev.downloadComplete status]
          (dlBatchConf bname bid dir fid files.length (k + 1) w)).w.resolves =
        w.resolves ++ [(some f.id, some (dir ++ f.filename))] ∧
      (runEv fs env [Ev.sigint, Ev.downloadComplete status]
          (dlBatchConf bname bid dir fid files.length (k + 1) w)).w.exited = none) ∧
    (k = files.length →
      (runEv fs env [Ev.sigint, Ev.downloadComplete status]
          (dlBatchConf bname bid dir fid files.length (k + 1) w)).w.resolves =
        w.resolves ∧
      (runEv fs env [Ev.sigint, Ev.downloadComplete status]
          (dlBatchConf bname bid dir fid files.length (k + 1) w)).w.exited = some 0) := by
  have hstep1 := dl_sigint fs env bname bid dir fid files.length (k + 1) w hex hcr hdv hsig
  refine ⟨?_, ?_, ?_⟩
  · rw [hstep1]
    rfl
  · intro f hlt hget
    have hget' : files[k + 1 - 1]? = some f := by simpa using hget
    have hstep2 := dl_step fs env files bname bid dir f hfs hde hok (k + 1)
      (by omega) hget' (by omega) (hwf f (List.getElem?_mem hget)) fid
      { w with cancels := w.cancels + 1, sigActive := false }
      status hex hcr hdv
    simp only [runEv, hstep1, hstep2]
    constructor <;> simp [dlBatchConf, hex]
  · intro hkeq
    subst hkeq
    have hstep2 := dl_step_done fs env files bname bid dir hfs fid
      { w with cancels := w.cancels + 1, sigActive := false }
      status hex hcr hdv
    simp only [runEv, hstep1, hstep2]
    constructor <;> simp [dlBatchConf, hex]

/-- C2 witness: the amended theorem applied at a concrete two-item
batch with item 1 in flight. -/
theorem C2_cancel_amended_witness :
    (stepEv ⟨some [['a', ':', 'x'], ['b', ':', 'y']], none, false, true, [], 0⟩
        ⟨none, none, none, none⟩
        (dlBatchConf ['n'] ['i'] ['/'] (some ['a'])
          (List.length [(⟨['a'], ['x']⟩ : FileMeta), ⟨['b'], ['y']⟩]) 2
          { sigActive := true, inFlight := true,
            resolves := [(some ['a'], some ['/', 'x'])] })
        Ev.sigint).w.cancels = 1 := by
  have h := C2_cancel_amended
    ⟨some [['a', ':', 'x'], ['b', ':', 'y']], none, false, true, [], 0⟩
    ⟨none, none, none, none⟩ ['n'] ['i'] ['/']
    [⟨['a'], ['x']⟩, ⟨['b'], ['y']⟩] 1 (some ['a'])
    { sigActive := true, inFlight := true,
      resolves := [(some ['a'], some ['/', 'x'])] } 1
    (by decide) rfl rfl (by decide) (by decide) (by decide) rfl rfl rfl rfl
  exact h.1

/-! ### Claim C6 -/

/-- C6: during a batch, a transfer that completes with a non-zero
status for one item is reported (the failure counter increases) but is
non-fatal: the queue manager advances and dispatches the next item —
for downloads unconditionally, and for uploads when the bridge passes a
non-null file meta to the completion callback. -/
theorem C6_item_failure_nonfatal (fs : Fs) (env : EnvOpts) (status : Int)
    (bname bid dir listPath : Str) (files : List FileMeta) (lines : List Str)
    (cu cu2 : Nat) (f : FileMeta) (l m : Str) (fid : Option Str)
    (fp : Option Str) (w : World)
    (hst : ¬status = 0)
    (hfs : fs.dwnldList = some (files.map encDl))
    (hde : fs.destExists = false) (hok : fs.openOk = true)
    (hwf : wfFile f)
    (hcu : 1 ≤ cu) (hget : files[cu - 1]? = some f) (hle : cu ≤ files.length)
    (hul : fs.uploadList = some lines)
    (hcu2 : 1 ≤ cu2) (hget2 : lines[cu2 - 1]? = some l) (hle2 : cu2 ≤ lines.length)
    (hex : w.exited = none) (hcr : w.crashed = false) (hdv : w.diverged = false) :
    ((stepEv fs env (dlBatchConf bname bid dir fid files.length cu w)
        (Ev.downloadComplete status)).w.failRep = w.failRep + 1 ∧
     (stepEv fs env (dlBatchConf bname bid dir fid files.length cu w)
        (Ev.downloadComplete status)).w.resolves =
       w.resolves ++ [(some f.id, some (dir ++ f.filename))] ∧
     (stepEv fs env (dlBatchConf bname bid dir fid files.length cu w)
        (Ev.downloadComplete status)).w.exited = none) ∧
    ((stepEv fs env (ulBatchConf bid listPath fp lines.length cu2 w)
        (Ev.uploadComplete status (some m))).w.failRep = w.failRep + 1 ∧
     (stepEv fs env (ulBatchConf bid listPath fp lines.length cu2 w)
        (Ev.uploadComplete status (some m))).w.uploads = w.uploads ++ [l] ∧
     (stepEv fs env (ulBatchConf bid listPath fp lines.length cu2 w)
        (Ev.uploadComplete status (some m))).w.exited = none) := by
  have hstep := dl_step fs env files bname bid dir f hfs hde hok cu hcu hget hle hwf
    fid w status hex hcr hdv
  have hstep2 := ul_step fs env lines bid listPath l hul cu2 hcu2 hget2 hle2 fp w
    status m hex hcr hdv
  rw [hstep, hstep2]
  simp [dlBatchConf, ulBatchConf, if_neg hst, hex]

/-- C6 witness: a failed item in a concrete two-item download batch and
a concrete two-item upload batch still advances the queue. -/
theorem C6_item_failure_nonfatal_witness :
    (stepEv ⟨some [['a', ':', 'x'], ['b', ':', 'y']], some [['p'], ['q']], false, true, [], 0⟩
        ⟨none, none, none, none⟩
        (dlBatchConf ['n'] ['i'] ['/'] (some ['a'])
          (List.length [(⟨['a'], ['x']⟩ : FileMeta), ⟨['b'], ['y']⟩]) 2 {})
        (Ev.downloadComplete 1)).w.failRep = World.failRep {} + 1 ∧
    (stepEv ⟨some [['a', ':', 'x'], ['b', ':', 'y']], some [['p'], ['q']], false, true, [], 0⟩
        ⟨none, none, none, none⟩
        (ulBatchConf ['i'] ['L'] (some ['p'])
          (List.length [['p'], ['q']]) 2 {})
        (Ev.uploadComplete 1 (some ['f']))).w.uploads = World.uploads {} ++ [['q']] := by
  have h := C6_item_failure_nonfatal
    ⟨some [['a', ':', 'x'], ['b', ':', 'y']], some [['p'], ['q']], false, true, [], 0⟩
    ⟨none, none, none, none⟩ 1 ['n'] ['i'] ['/'] ['L']
    [⟨['a'], ['x']⟩, ⟨['b'], ['y']⟩] [['p'], ['q']] 2 2
    ⟨['b'], ['y']⟩ ['q'] ['f'] (some ['a']) (some ['p']) {}
    (by decide) (by decide) rfl rfl (by decide) (by decide) (by decide) (by decide)
    (by decide) (by decide) (by decide) (by decide) rfl rfl rfl
  exact ⟨h.1.1, h.2.2.1⟩


/-! ### Bucket-scan lemmas -/

theorem bucket_scan_not_found (cmd : Option String) (bn : Str) (total : Nat) :
    ∀ (bs : List BucketMeta) (i : Nat), i + bs.length = total →
      (∀ b ∈ bs, ¬(bn = b.name)) →
      bucket_scan cmd (some bn) total bs i =
        ⟨none, none, 0, if bs = [] then [] else [BMsg.invalidBucketName]⟩
  | [], i, _, _ => by simp [bucket_scan]
  | b :: rest, i, hlen, hno => by
      have hb : ¬(bn = b.name) := hno b (List.mem_cons_self b rest)
      have hrest : ∀ x ∈ rest, ¬(bn = x.name) :=
        fun x hx => hno x (List.mem_cons_of_mem b hx)
      have hlen2 : (i + 1) + rest.length = total := by
        simp only [List.length_cons] at hlen
        omega
      have ih := bucket_scan_not_found cmd bn total rest (i + 1) hlen2 hrest
      rw [bucket_scan]
      dsimp only
      rw [if_neg hb, ih]
      by_cases hc : rest = []
      · subst hc
        have hcond : total - 1 ≤ i := by
          simp only [List.length_nil] at hlen2
          omega
        simp [hcond]
      · have hcond : ¬(total - 1 ≤ i) := by
          cases rest with
          | nil => exact absurd rfl hc
          | cons x xs =>
              simp only [List.length_cons] at hlen2
              omega
        simp [hc, hcond]

theorem bucket_scan_found (cmd : Option String) (bn : Str) (total : Nat)
    (b : BucketMeta) :
    ∀ (bs : List BucketMeta) (i : Nat), i + bs.length = total →
      bs.find? (fun x => decide (bn = x.name)) = some b →
      bucket_scan cmd (some bn) total bs i =
        ⟨some b.id, (cmdDispatch cmd).next_cmd, (cmdDispatch cmd).ret,
          BMsg.bucketInfo :: (cmdDispatch cmd).msgs⟩
  | [], i, _, hfind => by simp at hfind
  | b0 :: rest, i, hlen, hfind => by
      by_cases hb : bn = b0.name
      · have hb0 : b0 = b := by
          have hp : List.find? (fun x => decide (bn = x.name)) (b0 :: rest) = some b0 := by
            rw [List.find?_cons_of_pos]
            simp [hb]
          rw [hp] at hfind
          exact Option.some.inj hfind
        subst hb0
        rw [bucket_scan]
        dsimp only
        rw [if_pos hb]
      · have hfind2 : rest.find? (fun x => decide (bn = x.name)) = some b := by
          rw [List.find?_cons_of_neg] at hfind
          · exact hfind
          · simp [hb]
        have hrest_ne : rest ≠ [] := by
          intro hnil
          rw [hnil] at hfind2
          simp at hfind2
        have hcond : ¬(total - 1 ≤ i) := by
          cases rest with
          | nil => exact absurd rfl hrest_ne
          | cons x xs =>
              simp only [List.length_cons] at hlen
              omega
        have hlen2 : (i + 1) + rest.length = total := by
          simp only [List.length_cons] at hlen
          omega
        have ih := bucket_scan_found cmd bn total b rest (i + 1) hlen2 hfind2
        rw [bucket_scan]
        dsimp only
        rw [if_neg hb, ih]
        simp [hcond]

/-! ### Claim C4 -/

/-- C4: the bucket resolver scans the collection in order for an exact
name match.  On no match it dispatches nothing (the world is
unchanged), leaves the cached bucket id alone, and reports the invalid
bucket name when the collection is nonempty.  On the first match it
records the bucket id; for `list-files`/`download-file` it dispatches
the file enumeration (a `listFiles` bridge request), and for
`upload-file` it begins the upload (the single-file executor runs on
the staged path). -/
theorem C4_bucket_resolver (fs : Fs) (env : EnvOpts) (c : Conf)
    (buckets : List BucketMeta) (bn : Str) (b : BucketMeta) (p : Str)
    (hbn : c.st.bucket_name = some bn) :
    ((∀ bk ∈ buckets, ¬(bn = bk.name)) →
      (get_bucket_id_callback fs env 200 buckets c).1.st.bucket_id = c.st.bucket_id ∧
      (get_bucket_id_callback fs env 200 buckets c).1.w = c.w ∧
      (buckets ≠ [] →
        BMsg.invalidBucketName ∈ (get_bucket_id_callback fs env 200 buckets c).2)) ∧
    (buckets.find? (fun x => decide (bn = x.name)) = some b →
      ((c.st.curr_cmd_req = some "download-file" ∨
        c.st.curr_cmd_req = some "list-files") →
        (get_bucket_id_callback fs env 200 buckets c).1.st.bucket_id = some b.id ∧
        (get_bucket_id_callback fs env 200 buckets c).1.w.listFilesReqs =
          c.w.listFilesReqs + 1) ∧
      (c.st.curr_cmd_req = some "upload-file" → fs.uploadList = none →
        c.st.file_path = some p →
        (get_bucket_id_callback fs env 200 buckets c).1.st.bucket_id = some b.id ∧
        (get_bucket_id_callback fs env 200 buckets c).1.w.uploads =
          c.w.uploads ++ [p])) := by
  constructor
  · intro hno
    have hscan := bucket_scan_not_found c.st.curr_cmd_req bn buckets.length buckets 0
      (by omega) hno
    refine ⟨?_, ?_, ?_⟩
    · simp [get_bucket_id_callback, hbn, hscan]
    · simp [get_bucket_id_callback, hbn, hscan]
    · intro hne
      simp [get_bucket_id_callback, hbn, hscan, hne]
  · intro hfind
    have hne : buckets ≠ [] := by
      intro hnil
      rw [hnil] at hfind
      simp at hfind
    have hie : buckets.isEmpty = false := by
      cases buckets with
      | nil => exact absurd rfl hne
      | cons x xs => rfl
    have hscan := bucket_scan_found c.st.curr_cmd_req bn buckets.length b buckets 0
      (by omega) hfind
    constructor
    · intro hcmd
      rcases hcmd with hcmd | hcmd
      · have hs := hscan
        rw [hcmd] at hs
        simp [get_bucket_id_callback, hbn, hs, hie, hcmd, cmdDispatch,
          queue_next_cli_cmd]
      · have hs := hscan
        rw [hcmd] at hs
        simp [get_bucket_id_callback, hbn, hs, hie, hcmd, cmdDispatch,
          queue_next_cli_cmd]
    · intro hcmd hul hfp
      have hs := hscan
      rw [hcmd] at hs
      simp [get_bucket_id_callback, hbn, hs, hie, hcmd, cmdDispatch,
        queue_next_cli_cmd, hul, hfp, upload_file]

/-- C4 witness: the resolver applied to a concrete collection, in both
the no-match and the match case. -/
theorem C4_bucket_resolver_witness :
    (get_bucket_id_callback ⟨none, none, false, true, [], 0⟩ ⟨none, none, none, none⟩
        200 [⟨['i', '1'], ['a']⟩, ⟨['i', '2'], ['m']⟩]
        { st := { bucket_name := some ['m'],
                  curr_cmd_req := some "download-file" }, w := {} }).1.st.bucket_id =
      some ['i', '2'] ∧
    (get_bucket_id_callback ⟨none, none, false, true, [], 0⟩ ⟨none, none, none, none⟩
        200 [⟨['i', '1'], ['a']⟩, ⟨['i', '2'], ['m']⟩]
        { st := { bucket_name := some ['m'],
                  curr_cmd_req := some "download-file" }, w := {} }).1.w.listFilesReqs =
      World.listFilesReqs {} + 1 ∧
    (get_bucket_id_callback ⟨none, none, false, true, [], 0⟩ ⟨none, none, none, none⟩
        200 [⟨['i', '1'], ['a']⟩, ⟨['i', '2'], ['m']⟩]
        { st := { bucket_name := some ['z'],
                  curr_cmd_req := some "download-file" }, w := {} }).1.w =
      World.mk [] [] [] 0 0 0 0 0 false false 0 none false false := by
  have h1 := (C4_bucket_resolver ⟨none, none, false, true, [], 0⟩
    ⟨none, none, none, none⟩
    { st := { bucket_name := some ['m'], curr_cmd_req := some "download-file" }, w := {} }
    [⟨['i', '1'], ['a']⟩, ⟨['i', '2'], ['m']⟩] ['m'] ⟨['i', '2'], ['m']⟩ ['p']
    rfl).2 (by decide)
  have h2 := (C4_bucket_resolver ⟨none, none, false, true, [], 0⟩
    ⟨none, none, none, none⟩
    { st := { bucket_name := some ['z'], curr_cmd_req := some "download-file" }, w := {} }
    [⟨['i', '1'], ['a']⟩, ⟨['i', '2'], ['m']⟩] ['z'] ⟨['i', '2'], ['m']⟩ ['p']
    rfl).1 (by decide)
  exact ⟨(h1.1 (Or.inl rfl)).1, (h1.1 (Or.inl rfl)).2, h2.2.1⟩


/-! ### The wildcard file loop writes every entry -/

theorem lf_loop_star :
    ∀ (files : List FileMeta) (a : LfAcc),
      (∀ f ∈ files, f.filename ≠ ['*']) →
      lf_loop (some ['*']) true files a =
        { a with written := a.written ++ files.map encDl }
  | [], a, _ => by simp [lf_loop]
  | f :: rest, a, h => by
      have hf : ¬(['*'] = f.filename) :=
        fun he => (h f (List.mem_cons_self f rest)) he.symm
      have ih := lf_loop_star rest { a with written := a.written ++ [encDl f] }
        (fun x hx => h x (List.mem_cons_of_mem f hx))
      simp only [lf_loop, if_neg hf, if_true]
      rw [ih]
      simp

/-! ### Claim C3 -/

/-- C3 (code bug, evaluated at the failing input): for a single-file
download whose target name is absent from the bucket listing, the
orchestrator reports no FileNotFound and does not exit 1: the file
loop leaves `file_id = NULL`, `queue_next_cli_cmd` finds no download
list and calls `download_file`, which invokes the bridge resolve
operation with a NULL file id and leaves a transfer in flight. -/
theorem C3_missing_file_resolve_null :
    (list_files_callback ⟨none, none, false, true, [], 0⟩ ⟨none, none, none, none⟩
        200 [⟨['i', '1'], ['o', 't', 'h']⟩] true
        (singleDownloadConf ['b'] ['r', 'e', 'p'] ['/', 'o'] ['B'])).1.w.resolves =
      [(none, some ['/', 'o'])] ∧
    (list_files_callback ⟨none, none, false, true, [], 0⟩ ⟨none, none, none, none⟩
        200 [⟨['i', '1'], ['o', 't', 'h']⟩] true
        (singleDownloadConf ['b'] ['r', 'e', 'p'] ['/', 'o'] ['B'])).1.w.exited =
      none ∧
    (list_files_callback ⟨none, none, false, true, [], 0⟩ ⟨none, none, none, none⟩
        200 [⟨['i', '1'], ['o', 't', 'h']⟩] true
        (singleDownloadConf ['b'] ['r', 'e', 'p'] ['/', 'o'] ['B'])).1.w.inFlight =
      true := by
  decide

/-! ### Claim C7 -/

/-- C7 (counterexample): single-file download, target present, existing
destination, user answers `n`: the confirmation is asked, the download
is declined and resolve is never invoked, but the process exits with
status 0 — not 1 as the claim states (the caller of `download_file`
discards its return value and `main` returns its untouched 0). -/
theorem C7_decline_exit_cex :
    (list_files_callback ⟨none, none, true, true, ["n"], 0⟩ ⟨none, none, none, none⟩
        200 [⟨['i', '1'], ['r']⟩] true
        (singleDownloadConf ['b'] ['r'] ['/', 'o'] ['B'])).1.w.prompts = 1 ∧
    (list_files_callback ⟨none, none, true, true, ["n"], 0⟩ ⟨none, none, none, none⟩
        200 [⟨['i', '1'], ['r']⟩] true
        (singleDownloadConf ['b'] ['r'] ['/', 'o'] ['B'])).1.w.declines = 1 ∧
    (list_files_callback ⟨none, none, true, true, ["n"], 0⟩ ⟨none, none, none, none⟩
        200 [⟨['i', '1'], ['r']⟩] true
        (singleDownloadConf ['b'] ['r'] ['/', 'o'] ['B'])).1.w.resolves = [] ∧
    processExit (list_files_callback ⟨none, none, true, true, ["n"], 0⟩
        ⟨none, none, none, none⟩ 200 [⟨['i', '1'], ['r']⟩] true
        (singleDownloadConf ['b'] ['r'] ['/', 'o'] ['B'])).1 = some 0 := by
  decide

/-- C7 (amended): with an existing destination, `download_file` asks
for overwrite confirmation before opening the destination; when the
answer is `n` it reports the cancellation and returns 1 without ever
invoking the bridge resolve operation — but its caller ignores the
return value, so with nothing in flight the event loop drains and the
process exits with status 0 rather than 1. -/
theorem C7_decline_amended (fs : Fs) (c : Conf) (fid : Option Str) (p : Str)
    (hde : fs.destExists = true) (hp : promptLoop fs.inputs = some "n")
    (hex : c.w.exited = none) (hif : c.w.inFlight = false)
    (hsg : c.w.sigActive = false) (hdv : c.w.diverged = false) :
    download_file fs fid (some p) c =
      { c with w := { c.w with
          prompts := c.w.prompts + 1,
          declines := c.w.declines + 1 } } ∧
    (download_file fs fid (some p) c).w.resolves = c.w.resolves ∧
    processExit (download_file fs fid (some p) c) = some 0 := by
  have h1 : download_file fs fid (some p) c =
      { c with w := { c.w with
          prompts := c.w.prompts + 1,
          declines := c.w.declines + 1 } } := by
    simp [download_file, hde, hp]
  refine ⟨h1, ?_, ?_⟩
  · rw [h1]
  · rw [h1]
    simp [processExit, hex, hif, hsg, hdv]

/-- C7 witness: the amended theorem at a concrete declined download. -/
theorem C7_decline_amended_witness :
    download_file ⟨none, none, true, true, ["n"], 0⟩ (some ['i']) (some ['/', 'o'])
        initConf =
      { initConf with w := { initConf.w with
          prompts := World.prompts initConf.w + 1,
          declines := World.declines initConf.w + 1 } } ∧
    processExit (download_file ⟨none, none, true, true, ["n"], 0⟩ (some ['i'])
        (some ['/', 'o']) initConf) = some 0 := by
  have h := C7_decline_amended ⟨none, none, true, true, ["n"], 0⟩ initConf
    (some ['i']) ['/', 'o'] rfl (by decide) rfl rfl rfl rfl
  exact ⟨h.1, h.2.2⟩

/-! ### Claim C8 -/

/-- C8 (counterexample): a file name containing the `:` separator does
not survive the round trip: the single item `(f1, a:b)` is written as
the line `f1:a:b`, but the read-back dequeues the item `(f1, a)` — the
dispatched destination is `/d/a`, not `/d/` ++ `a:b`. -/
theorem C8_roundtrip_cex :
    (list_files_callback ⟨none, none, false, true, [], 0⟩ ⟨none, none, none, none⟩
        200 [⟨['f', '1'], ['a', ':', 'b']⟩] true
        (wildcardDownloadConf ['n'] ['/', 'd', '/'] ['B'])).2 =
      [['f', '1', ':', 'a', ':', 'b']] ∧
    (list_files_callback ⟨none, none, false, true, [], 0⟩ ⟨none, none, none, none⟩
        200 [⟨['f', '1'], ['a', ':', 'b']⟩] true
        (wildcardDownloadConf ['n'] ['/', 'd', '/'] ['B'])).1.w.resolves =
      [(some ['f', '1'], some ['/', 'd', '/', 'a'])] ∧
    ¬(['/', 'd', '/', 'a'] = ['/', 'd', '/'] ++ ['a', ':', 'b']) := by
  decide

/-- C8 (amended): for items whose ids and names are nonempty and free
of `:` and newlines (and whose names are not `*`), the round trip
holds: the wildcard enumeration writes exactly the `id:name` lines in
order, the byte-level file content splits back into those lines, the
line at each position 1..M tokenizes back to the original item, and
the read at position M+1 exits 0 (end of list). -/
theorem C8_list_roundtrip (fs : Fs) (env : EnvOpts)
    (bname dir bid : Str) (files : List FileMeta) (w : World) (fid : Option Str)
    (hwf : ∀ f ∈ files, wfFile f)
    (hfs : fs.dwnldList = some (files.map encDl)) :
    (list_files_callback fs env 200 files true
        (wildcardDownloadConf bname dir bid)).2 = files.map encDl ∧
    readLines (joinLines (files.map encDl)) = files.map encDl ∧
    (∀ (k : Nat) (f : FileMeta), 1 ≤ k → files[k - 1]? = some f →
      strtokSplit ':' (readLoop (files.map encDl) k []) = [f.id, f.filename]) ∧
    (queue_next_cli_cmd fs env
        (dlBatchConf bname bid dir fid files.length (files.length + 1) w)).w.exited =
      some 0 := by
  have hstar : ∀ f ∈ files, f.filename ≠ ['*'] :=
    fun f hf => (hwf f hf).2.2.2.2.2.2
  refine ⟨?_, ?_, ?_, ?_⟩
  · have hloop := lf_loop_star files
      ⟨none, some "list-files-1", files.length, [], false⟩ hstar
    simp [list_files_callback, wildcardDownloadConf, hloop]
  · apply readLines_joinLines
    intro l hl
    obtain ⟨f, hf, rfl⟩ := List.mem_map.mp hl
    intro hmem
    obtain ⟨_, _, _, _, hid, hname, _⟩ := hwf f hf
    unfold encDl at hmem
    rcases List.mem_append.mp hmem with h | h
    · exact hid h
    · rcases List.mem_cons.mp h with h | h
      · exact absurd h (by decide)
      · exact hname h
  · intro k f hk hget
    have hrl : readLoop (files.map encDl) k [] = encDl f := by
      refine readLoop_eq _ k _ _ hk ?_
      rw [List.getElem?_map, hget]
      rfl
    rw [hrl]
    exact strtokSplit_enc f (hwf f (List.getElem?_mem hget))
  · rw [dl_dispatch_done fs env files bname bid dir hfs fid w]
    rfl

/-- C8 witness: the amended round trip at a concrete two-item batch. -/
theorem C8_list_roundtrip_witness :
    (list_files_callback ⟨some ([(⟨['a'], ['x']⟩ : FileMeta), ⟨['b'], ['y']⟩].map encDl),
        none, false, true, [], 0⟩ ⟨none, none, none, none⟩ 200
        [⟨['a'], ['x']⟩, ⟨['b'], ['y']⟩] true
        (wildcardDownloadConf ['n'] ['/'] ['B'])).2 =
      [(⟨['a'], ['x']⟩ : FileMeta), ⟨['b'], ['y']⟩].map encDl ∧
    strtokSplit ':'
      (readLoop ([(⟨['a'], ['x']⟩ : FileMeta), ⟨['b'], ['y']⟩].map encDl) 2 []) =
      [['b'], ['y']] := by
  have h := C8_list_roundtrip
    ⟨some ([(⟨['a'], ['x']⟩ : FileMeta), ⟨['b'], ['y']⟩].map encDl),
      none, false, true, [], 0⟩ ⟨none, none, none, none⟩
    ['n'] ['/'] ['B'] [⟨['a'], ['x']⟩, ⟨['b'], ['y']⟩] {} none
    (by decide) rfl
  exact ⟨h.1, h.2.2.1 2 ⟨['b'], ['y']⟩ (by decide) (by decide)⟩


/-! ### Tokenizer result invariant -/

theorem validate_tokens_cases (s : Str) :
    (validate_cmd_tokenize s).tokens = [] ∨
    (validate_cmd_tokenize s).count =
      (((validate_cmd_tokenize s).tokens.length : Nat) : Int) := by
  unfold validate_cmd_tokenize
  by_cases h : strpos s storjScheme = 0 <;> simp [h]

/-! ### Claim C9 -/

/-- C9: for a single-file upload whose destination tokenizes to 2
tokens (no file name) or 3 tokens with the file name `.`, the name
passed to the bridge store operation equals the basename of the local
source path (`get_filename_separator`); the `cp` destination-name
defaulting in `main` computes the same basename. -/
theorem C9_default_name (fs : Fs) (env : EnvOpts) (path barg : Str)
    (buckets : List BucketMeta) (bn : Str) (b : BucketMeta)
    (hcount : (validate_cmd_tokenize barg).count = 2 ∨
      ((validate_cmd_tokenize barg).count = 3 ∧
       (validate_cmd_tokenize barg).tokens[2]? = some ['.']))
    (htok1 : (validate_cmd_tokenize barg).tokens[1]? = some bn)
    (hul : fs.uploadList = none)
    (hfind : buckets.find? (fun x => decide (bn = x.name)) = some b) :
    (c9chain fs env path barg buckets).map (fun cf => cf.w.uploads) =
      some [path] ∧
    (c9chain fs env path barg buckets).map (fun cf => cf.w.stores) =
      some [upload_opts env (some b.id) (get_filename_separator path)
        fs.openOk (decide (fs.log_level = 0))] ∧
    cp_dst_file path (validate_cmd_tokenize barg) =
      some (get_filename_separator path) := by
  have hstage : cli_upload_file CLI_VALID_REGULAR_FILE none [] path barg initConf =
      .staged { st := { bucket_name := (validate_cmd_tokenize barg).tokens[1]?,
                        bucket_id := none, file_name := none, file_path := some path,
                        file_id := none, total_files := 0, curr_up_file := 0,
                        curr_cmd_req := some "upload-file", next_cmd_req := none },
                w := {} } := by
    rcases hcount with h2 | ⟨h3, ht2⟩
    · have htk2 : (validate_cmd_tokenize barg).tokens[2]? = none := by
        rcases validate_tokens_cases barg with hnil | hlen
        · simp [hnil]
        · have hl2 : (validate_cmd_tokenize barg).tokens.length = 2 := by
            rw [h2] at hlen
            exact_mod_cast hlen.symm
          exact List.getElem?_eq_none (by omega)
      have hne3 : ¬((validate_cmd_tokenize barg).count = 3) := by
        rw [h2]
        decide
      simp [cli_upload_file, CLI_VALID_REGULAR_FILE, initConf, hne3, h2, htk2]
    · simp [cli_upload_file, CLI_VALID_REGULAR_FILE, initConf, h3, ht2]
  have hne : buckets ≠ [] := by
    intro hnil
    rw [hnil] at hfind
    simp at hfind
  have hie : buckets.isEmpty = false := by
    cases buckets with
    | nil => exact absurd rfl hne
    | cons x xs => rfl
  have hscan := bucket_scan_found (some "upload-file") bn buckets.length b buckets 0
    (by omega) hfind
  refine ⟨?_, ?_, ?_⟩
  · simp [c9chain, hstage, get_bucket_id_callback, htok1, hscan, hie, cmdDispatch,
      queue_next_cli_cmd, hul, upload_file]
  · simp [c9chain, hstage, get_bucket_id_callback, htok1, hscan, hie, cmdDispatch,
      queue_next_cli_cmd, hul, upload_file]
  · rcases hcount with h2 | ⟨h3, ht2⟩
    · have htk2 : (validate_cmd_tokenize barg).tokens[2]? = none := by
        rcases validate_tokens_cases barg with hnil | hlen
        · simp [hnil]
        · have hl2 : (validate_cmd_tokenize barg).tokens.length = 2 := by
            rw [h2] at hlen
            exact_mod_cast hlen.symm
          exact List.getElem?_eq_none (by omega)
      simp [cp_dst_file, h2, htk2]
    · simp [cp_dst_file, h3, ht2]

/-- C9 witness: uploading `d/f` to `storj://b` stores under the
basename `f`. -/
theorem C9_default_name_witness :
    (c9chain ⟨none, none, false, true, [], 0⟩ ⟨none, none, none, none⟩
        "d/f".toList "storj://b".toList [⟨['I'], ['b']⟩]).map
      (fun cf => cf.w.uploads) = some ["d/f".toList] ∧
    (c9chain ⟨none, none, false, true, [], 0⟩ ⟨none, none, none, none⟩
        "d/f".toList "storj://b".toList [⟨['I'], ['b']⟩]).map
      (fun cf => cf.w.stores) =
      some [upload_opts ⟨none, none, none, none⟩ (some ['I'])
        (get_filename_separator "d/f".toList) true (decide ((0 : Int) = 0))] := by
  have h := C9_default_name ⟨none, none, false, true, [], 0⟩ ⟨none, none, none, none⟩
    "d/f".toList "storj://b".toList [⟨['I'], ['b']⟩] ['b'] ⟨['I'], ['b']⟩
    (Or.inl (by decide)) (by decide) rfl (by decide)
  exact ⟨h.1, h.2.1⟩

end StorjCli
